import Mathlib

/-!
# Blink Marine PKP CANopen keypad driver

Shallow embedding of `src/BlinkMarinePkpCanOpen.h` / `.cpp`.

* Machine integers are `Nat` / `Int`; every narrowing store of the source
  (`uint8_t`, `int8_t`, `uint16_t`) is written out with `toU8`, `toI8`, `toU16`.
* Fixed-size C arrays are total functions from the index; the source guards or
  clamps every index before use.
* The driver object is the record `Pkp`; a member function that writes a member
  returns the new record next to its result.
* `millis()` is an extra argument `currentMillis` of the functions that read the clock.
* The transmit callback is a function of the frames handed over so far and of the
  frame handed over now; the ghost field `txLog` records every frame handed to it.
* `min`, `max` and `constrain` come from the Arduino core, which is not part of the
  repository. A core provides them either as functions that evaluate each argument once,
  or as macros such as `((a)>(b)?(a):(b))` that evaluate the chosen operand a second time.
  The two agree wherever the operands have no side effect (`min`, `constrain`); `max` is
  applied to member calls that transmit, so the reading is a parameter of the embedding:
  the ghost field `maxEvalTwice` of the driver, which no operation writes. A statement
  about an arbitrary driver covers both readings.
-/

namespace BlinkMarine

/-! ## Helpers of the header and of the Arduino core -/

/-- Header `inLimits`: closed-interval test on `int32_t`. -/
def inLimits (value low high : Int) : Bool :=
  decide (value ≥ low) && decide (value ≤ high)

/-- Header `checkBit`: `(value & (1 << pos)) != 0`, for a non-negative value. -/
def checkBit (value : Nat) (pos : Nat) : Bool :=
  (value &&& (1 <<< pos)) != 0

/-- Arduino core `constrain(amt, low, high)`. -/
def constrain {α : Type} [LT α] [DecidableRel (fun a b : α => a < b)] (amt low high : α) : α :=
  if amt < low then low else if amt > high then high else amt

/-- Conversion to `uint8_t`. -/
def toU8 (x : Int) : Nat := (x % 256).toNat

/-- Conversion to `uint16_t`. -/
def toU16 (x : Int) : Nat := (x % 65536).toNat

/-- Conversion to `int8_t` (two's complement wrap). -/
def toI8 (x : Int) : Int := (x + 128) % 256 - 128

/-- Unsigned 32-bit subtraction, as in `currentMillis - _lastCanFrameTimestamp`. -/
def subU32 (a b : Nat) : Nat := (a + 2 ^ 32 - b % 2 ^ 32) % 2 ^ 32

def PKP_MAX_KEY_AMOUNT : Nat := 15
def PKP_MAX_WIRED_IN_AMOUNT : Nat := 4
def PKP_MAX_ROTARY_ENCODER_AMOUNT : Nat := 2

/-! ## Types -/

/-- The `struct can_frame` of `can.h`: identifier, length, eight payload bytes. -/
structure can_frame where
  can_id : Nat
  can_dlc : Nat
  data : List Nat
  deriving DecidableEq, Repr

/-- Payload byte `data[i]`. -/
def can_frame.byte (f : can_frame) (i : Nat) : Nat := f.data.getD i 0

/-- The transmit callback: given the frames handed over so far and the frame handed
over now, the `uint8_t` it returns (0 = success). -/
abbrev CanMsgTxCallback := List can_frame → can_frame → Nat

inductive keypadCanStatus_e where
  | KPS_FRESH
  | KPS_RX_WITHIN_LAST_SECOND
  | KPS_NO_RX_WITHIN_LAST_SECOND
  deriving DecidableEq, Repr

def KEY_MODE_MOMENTARY : Nat := 0
def KEY_MODE_TOGGLE : Nat := 1
def KEY_MODE_CYCLE3 : Nat := 2
def KEY_MODE_CYCLE4 : Nat := 3

def BACKLIGHT_DEFAULT : Nat := 0x00
def BACKLIGHT_AMBER : Nat := 0x08
def BACKLIGHT_YELLOWGREEN : Nat := 0x09

inductive returnState_e where
  | RS_SUCCESS
  | RS_KEYPAD_NOT_INITIALIZED
  | RS_INVALID_KEY_INDEX
  | RS_INVALID_ENCODER_INDEX
  | RS_INVALID_KEY_STATE
  | RS_INVALID_KEY_MODE
  | RS_INVALID_COLOR
  | RS_CAN_TX_ERROR
  | RS_NULLPOINTER
  deriving DecidableEq, Repr

open returnState_e keypadCanStatus_e

/-- Numeric value of the enumerator. -/
def returnState_e.toNat : returnState_e → Nat
  | RS_SUCCESS => 0
  | RS_KEYPAD_NOT_INITIALIZED => 1
  | RS_INVALID_KEY_INDEX => 2
  | RS_INVALID_ENCODER_INDEX => 3
  | RS_INVALID_KEY_STATE => 4
  | RS_INVALID_KEY_MODE => 5
  | RS_INVALID_COLOR => 6
  | RS_CAN_TX_ERROR => 7
  | RS_NULLPOINTER => 8

/-- Arduino core `max` on two result codes that are already evaluated. -/
def rsMax (a b : returnState_e) : returnState_e :=
  if a.toNat > b.toNat then a else b

inductive updateType_e where
  | UT_KEY_LEDS
  | UT_ENCODER_LEDS
  | UT_ALL
  deriving DecidableEq, Repr

open updateType_e

def updateType_e.toNat : updateType_e → Nat
  | UT_KEY_LEDS => 0b01
  | UT_ENCODER_LEDS => 0b10
  | UT_ALL => 0b11

def CM_SOLID : Bool := false
def CM_BLINK : Bool := true

inductive keypadStatusUpdate_e where
  | MSG_RECEIVED_VALID
  | MSG_RECEIVED_NOTHING
  deriving DecidableEq, Repr

open keypadStatusUpdate_e

def CAN_RX_BASE_ID_ENCODER_1 : Nat := 0x280
def CAN_RX_BASE_ID_ENCODER_2 : Nat := 0x380
def CAN_RX_BASE_ID_HEARTBEAT : Nat := 0x700
def CAN_RX_BASE_ID_KEYS : Nat := 0x180
def CAN_RX_BASE_ID_WIRED_IN : Nat := 0x480
def CAN_TX_BASE_ID_ENCODER_LED : Nat := 0x400
def CAN_TX_BASE_ID_KEY_BACKLIGHT : Nat := 0x500
def CAN_TX_BASE_ID_KEY_BLINK : Nat := 0x300
def CAN_TX_BASE_ID_KEY_COLOR : Nat := 0x200
def CAN_TX_BASE_ID_SDO : Nat := 0x600

/-- The private members of `class Pkp`, plus the ghost log of transmitted frames and the
ghost flag `maxEvalTwice`: whether the `max` of the Arduino core is the macro that
evaluates its chosen operand a second time. -/
structure Pkp where
  _canNodeHeartbeatInterval : Nat
  _canNodeReconnectInterval : Nat
  _canNodeWatchdogTime : Nat
  _backlightBrightness : Nat
  _backlightColor : Nat
  _canId : Nat
  _currentEncoderBlinkLed : Nat → Nat
  _currentEncoderLed : Nat → Nat
  _defaultKeyState : Nat → Nat
  _encoderInitValue : Nat → Nat
  _encoderPosition : Nat → Nat
  _encoderTopValue : Nat → Nat
  _initialized : Bool
  _keyBlinkColor : Nat → Nat → Nat
  _keyBrightness : Nat
  _keyColor : Nat → Nat → Nat
  _keyPressed : Nat → Bool
  _keyState : Nat → Nat
  _keypadCanStatus : keypadCanStatus_e
  _keyMode : Nat → Nat
  _lastKeyPressed : Nat → Bool
  _lastCanFrameTimestamp : Nat
  _lastReconnectTry : Nat
  _overrideKeyState : Nat → Int
  _relativeEncoderTicks : Nat → Int
  _wiredInputValue : Nat → Nat
  _transmitMessage : Option CanMsgTxCallback
  txLog : List can_frame
  maxEvalTwice : Bool

namespace Pkp

/-- Constructor `Pkp::Pkp` together with the default member initialisers of the header.
The last argument is not an argument of the source: it fixes the `max` of the Arduino
core that the driver is built with. -/
def ctor (canId : Nat) (callback : Option CanMsgTxCallback) (heartBeatInterval : Nat)
    (maxEvalTwice : Bool) : Pkp where
  _canNodeHeartbeatInterval := heartBeatInterval
  _canNodeReconnectInterval := 2000
  _canNodeWatchdogTime := 1200
  _backlightBrightness := 10
  _backlightColor := BACKLIGHT_AMBER
  _canId := canId
  _currentEncoderBlinkLed := fun _ => 0
  _currentEncoderLed := fun _ => 0
  _defaultKeyState := fun _ => 0
  _encoderInitValue := fun _ => 0
  _encoderPosition := fun _ => 0
  _encoderTopValue := fun i => if i < PKP_MAX_ROTARY_ENCODER_AMOUNT then 16 else 0
  _initialized := false
  _keyBlinkColor := fun _ _ => 0
  _keyBrightness := 50
  _keyColor := fun _ _ => 0
  _keyPressed := fun _ => false
  _keyState := fun _ => 0
  _keypadCanStatus := KPS_FRESH
  _keyMode := fun _ => 0
  _lastKeyPressed := fun _ => false
  _lastCanFrameTimestamp := 0
  _lastReconnectTry := 0
  _overrideKeyState := fun i => if i < PKP_MAX_KEY_AMOUNT then -1 else 0
  _relativeEncoderTicks := fun _ => 0
  _wiredInputValue := fun _ => 0
  _transmitMessage := callback
  txLog := []
  maxEvalTwice := maxEvalTwice

/-! ## Transmit path -/

/-- Source `Pkp::_transmit`. -/
def _transmit (s : Pkp) (txMsg : can_frame) (initMsg : Bool) : returnState_e × Pkp :=
  if !s._initialized && !initMsg then
    (RS_KEYPAD_NOT_INITIALIZED, s)
  else
    match s._transmitMessage with
    | none => (RS_NULLPOINTER, s)
    | some callback =>
      let s1 := { s with txLog := s.txLog ++ [txMsg] }
      if 0 ≠ callback s.txLog txMsg % 256 then (RS_CAN_TX_ERROR, s1) else (RS_SUCCESS, s1)

/-- The frame built by `Pkp::_writeEncoderLeds`, from the state after its first loop. -/
def encoderLedFrame (s : Pkp) (writeBlinking : Bool) : can_frame :=
  if writeBlinking then
    { can_id := CAN_TX_BASE_ID_SDO + s._canId
      can_dlc := 8
      data := [0x23, 0x02, 0x20, 0x04,
               s._currentEncoderBlinkLed 0 &&& 0xFF, (s._currentEncoderBlinkLed 0 >>> 8) % 256,
               s._currentEncoderBlinkLed 1 &&& 0xFF, (s._currentEncoderBlinkLed 1 >>> 8) % 256] }
  else
    { can_id := CAN_TX_BASE_ID_ENCODER_LED + s._canId
      can_dlc := 4
      data := [s._currentEncoderLed 0 &&& 0xFF, (s._currentEncoderLed 0 >>> 8) % 256,
               s._currentEncoderLed 1 &&& 0xFF, (s._currentEncoderLed 1 >>> 8) % 256,
               0, 0, 0, 0] }

/-- Body of the first loop of `Pkp::_writeEncoderLeds` for encoder `i`. -/
def encoderLedStep (acc : Bool × Pkp) (i : Nat) : Bool × Pkp :=
  if acc.2._currentEncoderBlinkLed i > 0 then
    (true, { acc.2 with _currentEncoderLed := Function.update acc.2._currentEncoderLed i 0 })
  else acc

/-- Source `Pkp::_writeEncoderLeds`. -/
def _writeEncoderLeds (s : Pkp) : returnState_e × Pkp :=
  let r := (List.range PKP_MAX_ROTARY_ENCODER_AMOUNT).foldl encoderLedStep (false, s)
  _transmit r.2 (encoderLedFrame r.2 r.1) false

/-- Body of the colour loop of `Pkp::_writeKeyLeds` for state slot `m` and key `k`, on the
row `pColArray[k]` = `(red, green, blue)`. Each store that the source makes under a
condition is written as a store of the conditional value. -/
def keyLedRowStep (s : Pkp) (mode : Bool) (m k : Nat) (row : Bool × Bool × Bool) :
    Bool × Bool × Bool :=
  let hit : Bool := decide (s._keyState k = m)
  let both : Bool := decide (s._keyColor m k ≠ 0) && decide (s._keyBlinkColor m k ≠ 0)
  let solid : Bool := mode == CM_SOLID || both
  let row1 : Bool × Bool × Bool :=
    if hit && solid then
      (((s._keyColor m k >>> 2) &&& 1) != 0,
       ((s._keyColor m k >>> 1) &&& 1) != 0,
       (s._keyColor m k &&& 1) != 0)
    else row
  if hit && !(solid && mode == CM_SOLID) then
    (row1.1 || (((s._keyBlinkColor m k >>> 2) &&& 1) != 0),
     row1.2.1 || (((s._keyBlinkColor m k >>> 1) &&& 1) != 0),
     row1.2.2 || ((s._keyBlinkColor m k &&& 1) != 0))
  else row1

/-- Body of the colour loop of `Pkp::_writeKeyLeds` on the array `pColArray`, the list `p`
of 15 rows. -/
def keyLedColStep (s : Pkp) (mode : Bool) (m : Nat) (p : List (Bool × Bool × Bool)) (k : Nat) :
    List (Bool × Bool × Bool) :=
  p.set k (keyLedRowStep s mode m k (p.getD k (false, false, false)))

/-- The array `pColArray` of `Pkp::_writeKeyLeds` after the two nested loops. -/
def keyLedColArray (s : Pkp) (mode : Bool) : List (Bool × Bool × Bool) :=
  (List.range 4).foldl
    (fun p m => (List.range PKP_MAX_KEY_AMOUNT).foldl (keyLedColStep s mode m) p)
    (List.replicate PKP_MAX_KEY_AMOUNT (false, false, false))

/-- One `txMsg.data[j] |= bit << bitIdx` store. -/
def orByte (data : List Nat) (j : Nat) (bit : Bool) (bitIdx : Nat) : List Nat :=
  data.set j ((data.getD j 0 ||| (bit.toNat <<< bitIdx)) % 256)

/-- Body of the packing loop of `Pkp::_writeKeyLeds` for key `i`. -/
def keyLedPackStep (p : List (Bool × Bool × Bool)) (data : List Nat) (i : Nat) : List Nat :=
  let hi : Nat := if i > 7 then 1 else 0
  let redByte := 0 + hi
  let greenByte := 2 + hi
  let blueByte := 4 + hi
  let bitIdx := i % 8
  let row : Bool × Bool × Bool := p.getD i (false, false, false)
  orByte (orByte (orByte data redByte row.1 bitIdx) greenByte row.2.1 bitIdx)
    blueByte row.2.2 bitIdx

/-- The frame built by `Pkp::_writeKeyLeds`. -/
def keyLedFrame (s : Pkp) (mode : Bool) : can_frame :=
  { can_id := (if mode then CAN_TX_BASE_ID_KEY_BLINK else CAN_TX_BASE_ID_KEY_COLOR) + s._canId
    can_dlc := 6
    data := (List.range PKP_MAX_KEY_AMOUNT).foldl (keyLedPackStep (keyLedColArray s mode))
      [0, 0, 0, 0, 0, 0, 0, 0] }

/-- Source `Pkp::_writeKeyLeds`; `constrain(mode, CM_SOLID, CM_BLINK)` is the identity on
a `bool`. -/
def _writeKeyLeds (s : Pkp) (mode : Bool) : returnState_e × Pkp :=
  _transmit s (keyLedFrame s mode) false

/-- The statement `returnValue = max(returnValue, call)` of the source, where `call` is a
member call, from the driver `s`. A `max` that evaluates each argument once makes the call
once and keeps the greater code. The macro `((a)>(b)?(a):(b))` makes the call for the
comparison and, unless `returnValue` is strictly greater, makes it a second time and
yields the code of that second call. -/
def maxCall (returnValue : returnState_e) (call : Pkp → returnState_e × Pkp) (s : Pkp) :
    returnState_e × Pkp :=
  let r : returnState_e × Pkp := call s
  if s.maxEvalTwice then
    if returnValue.toNat > r.1.toNat then (returnValue, r.2) else call r.2
  else (rsMax returnValue r.1, r.2)

/-- Source `Pkp::_update`; each `returnValue = max(returnValue, ...)` is a `maxCall`. -/
def _update (s : Pkp) (updateType : updateType_e) : returnState_e × Pkp :=
  let r0 : returnState_e × Pkp := (RS_SUCCESS, s)
  let r1 : returnState_e × Pkp :=
    if updateType.toNat &&& UT_KEY_LEDS.toNat ≠ 0 then
      let a := maxCall r0.1 (fun t => _writeKeyLeds t CM_SOLID) r0.2
      maxCall a.1 (fun t => _writeKeyLeds t CM_BLINK) a.2
    else r0
  if updateType.toNat &&& UT_ENCODER_LEDS.toNat ≠ 0 then
    maxCall r1.1 _writeEncoderLeds r1.2
  else r1

/-! ## Getters -/

/-- Source `Pkp::getEncoderPosition`. -/
def getEncoderPosition (s : Pkp) (encoderIndex : Nat) : Nat :=
  if encoderIndex > PKP_MAX_ROTARY_ENCODER_AMOUNT - 1 then 0 else s._encoderPosition encoderIndex

/-- Source `Pkp::getKeyPress`. -/
def getKeyPress (s : Pkp) (keyIndex : Nat) : Bool :=
  if keyIndex > PKP_MAX_KEY_AMOUNT - 1 then false else s._keyPressed keyIndex

/-- Source `Pkp::getKeyState`. -/
def getKeyState (s : Pkp) (keyIndex : Nat) : Nat :=
  if keyIndex > PKP_MAX_KEY_AMOUNT - 1 then 0 else s._keyState keyIndex

/-- Source `Pkp::getWiredInput`. -/
def getWiredInput (s : Pkp) (inputIndex : Nat) : Nat :=
  if inputIndex > PKP_MAX_WIRED_IN_AMOUNT - 1 then 0 else s._wiredInputValue inputIndex

/-- Source `Pkp::getRelativeEncoderTicks`: the value returned and the driver afterwards. -/
def getRelativeEncoderTicks (s : Pkp) (encoderIndex : Nat) : Int × Pkp :=
  if encoderIndex > PKP_MAX_ROTARY_ENCODER_AMOUNT - 1 then (0, s)
  else
    let ticks : Int := s._relativeEncoderTicks encoderIndex
    (ticks, { s with _relativeEncoderTicks := Function.update s._relativeEncoderTicks encoderIndex 0 })

/-! ## Mutators -/

/-- Source `Pkp::applyDefaultKeyStates`; the `memcpy` copies the 15 entries. -/
def applyDefaultKeyStates (s : Pkp) : returnState_e × Pkp :=
  _update
    { s with _keyState := fun i => if i < PKP_MAX_KEY_AMOUNT then s._defaultKeyState i else s._keyState i }
    UT_KEY_LEDS

/-- Source `Pkp::initializeEncoder`. -/
def initializeEncoder (s : Pkp) (index topValue actValue : Nat) : returnState_e × Pkp :=
  let index := constrain index 0 (PKP_MAX_ROTARY_ENCODER_AMOUNT - 1)
  let topValue := constrain topValue 0 0x10
  let realTopValue : Nat := if topValue = 0 then 0xFFFF else topValue
  let s1 := { s with _encoderTopValue := Function.update s._encoderTopValue index (realTopValue % 256) }
  let s2 := { s1 with _encoderInitValue := Function.update s1._encoderInitValue index (min actValue realTopValue) }
  if !s2._initialized then (RS_KEYPAD_NOT_INITIALIZED, s2)
  else
    let r := _transmit s2
      { can_id := CAN_TX_BASE_ID_SDO + s2._canId
        can_dlc := 5
        data := [0x2F, 0x00, 0x20, (0x06 + index) % 256, s2._encoderTopValue index, 0, 0, 0] } false
    if r.1 ≠ RS_SUCCESS then r
    else
      _transmit r.2
        { can_id := CAN_TX_BASE_ID_SDO + r.2._canId
          can_dlc := 6
          data := [0x2B, 0x00, 0x20, if 0 = index then 0x03 else 0x05,
                   r.2._encoderInitValue index &&& 0xFF, (r.2._encoderInitValue index >>> 8) % 256,
                   0, 0] } false

/-- Body of the loop of `Pkp::presetDefaultKeyStates` for key `i`. -/
def presetStep (defaultStates : Nat → Int) (acc : Bool × Pkp) (i : Nat) : Bool × Pkp :=
  if !inLimits (defaultStates i) (-1) 3 then (true, acc.2)
  else if defaultStates i = -1 then acc
  else (acc.1, { acc.2 with
    _defaultKeyState := Function.update acc.2._defaultKeyState i (toU8 (defaultStates i)) })

/-- Source `Pkp::presetDefaultKeyStates`. -/
def presetDefaultKeyStates (s : Pkp) (defaultStates : Nat → Int) : returnState_e × Pkp :=
  let r := (List.range PKP_MAX_KEY_AMOUNT).foldl (presetStep defaultStates) (false, s)
  if r.1 then (RS_INVALID_KEY_STATE, r.2) else (RS_SUCCESS, r.2)

/-- Source `Pkp::setBacklight`. -/
def setBacklight (s : Pkp) (color brightness : Int) : returnState_e × Pkp :=
  if !inLimits color BACKLIGHT_DEFAULT BACKLIGHT_YELLOWGREEN then (RS_INVALID_COLOR, s)
  else
    let s1 := { s with _backlightBrightness := toU8 (constrain brightness 0 100) }
    let s2 := { s1 with _backlightColor := toU8 color }
    _transmit s2
      { can_id := CAN_TX_BASE_ID_KEY_BACKLIGHT + s2._canId
        can_dlc := 2
        data := [(0x3F * s2._backlightBrightness / 100) % 256, s2._backlightColor,
                 0, 0, 0, 0, 0, 0] } false

/-- Body of the loop of `Pkp::setEncoderLeds` for encoder `i`. -/
def setEncoderLedStep (ledsEncoder : Nat → Int) (acc : Bool × Pkp) (i : Nat) : Bool × Pkp :=
  if ledsEncoder i ≥ 0 ∧ acc.2._currentEncoderLed i ≠ toU16 (ledsEncoder i) then
    (true, { acc.2 with
      _currentEncoderLed := Function.update acc.2._currentEncoderLed i (toU16 (ledsEncoder i)) })
  else acc

/-- Source `Pkp::setEncoderLeds`. -/
def setEncoderLeds (s : Pkp) (ledsEncoder : Nat → Int) : returnState_e × Pkp :=
  let r := (List.range PKP_MAX_ROTARY_ENCODER_AMOUNT).foldl (setEncoderLedStep ledsEncoder) (false, s)
  if r.1 then _update r.2 UT_ENCODER_LEDS else (RS_SUCCESS, r.2)

/-- Source `Pkp::setKeyBrightness`. -/
def setKeyBrightness (s : Pkp) (brightness : Nat) : returnState_e × Pkp :=
  let s1 := { s with _keyBrightness := constrain brightness 0 100 }
  _transmit s1
    { can_id := CAN_TX_BASE_ID_SDO + s1._canId
      can_dlc := 5
      data := [0x2F, 0x03, 0x20, 0x01, (0x3F * s1._keyBrightness / 100) % 256, 0, 0, 0] } false

/-- Body of the loop of `Pkp::setKeyColor` for state slot `i`. -/
def setKeyColorStep (keyIndex : Nat) (colors blinkColors : Nat → Nat) (acc : Bool × Pkp)
    (i : Nat) : Bool × Pkp :=
  if !inLimits keyIndex 0 (PKP_MAX_KEY_AMOUNT - 1 : Nat) then (true, acc.2)
  else
    let s1 := { acc.2 with
      _keyColor := Function.update acc.2._keyColor i
        (Function.update (acc.2._keyColor i) keyIndex (colors i)) }
    (acc.1, { s1 with
      _keyBlinkColor := Function.update s1._keyBlinkColor i
        (Function.update (s1._keyBlinkColor i) keyIndex (blinkColors i)) })

/-- Source `Pkp::setKeyColor`; its last statement `max(returnValue, _update(UT_KEY_LEDS))`
is a `maxCall`. -/
def setKeyColor (s : Pkp) (keyIndex : Nat) (colors blinkColors : Nat → Nat) :
    returnState_e × Pkp :=
  if !inLimits keyIndex 0 (PKP_MAX_KEY_AMOUNT - 1 : Nat) then (RS_INVALID_KEY_INDEX, s)
  else
    let r := (List.range 4).foldl (setKeyColorStep keyIndex colors blinkColors) (false, s)
    let returnValue := if r.1 then RS_INVALID_COLOR else RS_SUCCESS
    maxCall returnValue (fun t => _update t UT_KEY_LEDS) r.2

/-- Source `Pkp::setKeyMode`. -/
def setKeyMode (s : Pkp) (keyIndex keyMode : Nat) : returnState_e × Pkp :=
  if !inLimits keyIndex 0 (PKP_MAX_KEY_AMOUNT - 1 : Nat) then (RS_INVALID_KEY_INDEX, s)
  else if !inLimits keyMode KEY_MODE_MOMENTARY KEY_MODE_CYCLE4 then (RS_INVALID_KEY_MODE, s)
  else (RS_SUCCESS, { s with _keyMode := Function.update s._keyMode keyIndex keyMode })

/-- Source `Pkp::setKeyStateOverride`. -/
def setKeyStateOverride (s : Pkp) (keyIndex : Nat) (overrideKeyState : Int) :
    returnState_e × Pkp :=
  if keyIndex ≥ PKP_MAX_KEY_AMOUNT then (RS_INVALID_KEY_INDEX, s)
  else if !inLimits overrideKeyState (-1) KEY_MODE_CYCLE4 then (RS_INVALID_KEY_STATE, s)
  else
    let s1 := { s with _overrideKeyState := Function.update s._overrideKeyState keyIndex overrideKeyState }
    let s2 : Pkp := { s1 with
      _keyState := Function.update s1._keyState keyIndex
        (if overrideKeyState ≥ 0 then toU8 overrideKeyState else s1._keyState keyIndex) }
    _update s2 UT_KEY_LEDS

/-! ## Decoders -/

/-- Bit of key `i` in a key-status payload: `checkBit(data[i > 7 ? 1 : 0], i % 8)`. -/
def keyBit (data : List Nat) (i : Nat) : Bool :=
  checkBit (data.getD (if i > 7 then 1 else 0) 0) (i % 8)

/-- Body of the loop of `Pkp::_decodeKeyStates` for key `i`. Each store that the source
makes under a condition is written as a store of the conditional value. -/
def decodeKeyStep (data : List Nat) (s : Pkp) (i : Nat) : Pkp :=
  let s1 : Pkp := { s with _keyPressed := Function.update s._keyPressed i (keyBit data i) }
  let edge : Bool := s1._lastKeyPressed i != s1._keyPressed i
  let s2 : Pkp := { s1 with
    _keyState := Function.update s1._keyState i
      (if edge then
        if s1._keyMode i = KEY_MODE_MOMENTARY then (s1._keyPressed i).toNat
        else if s1._keyPressed i = true then
          if s1._keyMode i = KEY_MODE_TOGGLE then (if s1._keyState i = 0 then 1 else 0)
          else if s1._keyMode i = KEY_MODE_CYCLE3 then
            (if s1._keyState i < 2 then (s1._keyState i + 1) % 256 else 0)
          else if s1._keyMode i = KEY_MODE_CYCLE4 then
            (if s1._keyState i < 3 then (s1._keyState i + 1) % 256 else 0)
          else s1._keyState i
        else s1._keyState i
       else s1._keyState i) }
  let s3 : Pkp := { s2 with
    _lastKeyPressed := Function.update s2._lastKeyPressed i
      (if edge then s2._keyPressed i else s2._lastKeyPressed i) }
  { s3 with
    _keyState := Function.update s3._keyState i
      (if s3._overrideKeyState i ≥ 0 then toU8 (s3._overrideKeyState i) else s3._keyState i) }

/-- Source `Pkp::_decodeKeyStates`. -/
def _decodeKeyStates (s : Pkp) (data : List Nat) : returnState_e × Pkp :=
  _update ((List.range PKP_MAX_KEY_AMOUNT).foldl (decodeKeyStep data) s) UT_KEY_LEDS

/-- Source `Pkp::_decodeRotaryEncoder`. -/
def _decodeRotaryEncoder (s : Pkp) (data : List Nat) (encoderIndex : Nat) : returnState_e × Pkp :=
  if !inLimits encoderIndex 0 (PKP_MAX_ROTARY_ENCODER_AMOUNT - 1 : Nat) then
    (RS_INVALID_ENCODER_INDEX, s)
  else
    let ticks : Int := toI8 (data.getD 0 0 &&& 0x7F : Nat)
    let ccWise := checkBit (data.getD 0 0) 7
    let s1 := { s with
      _relativeEncoderTicks := Function.update s._relativeEncoderTicks encoderIndex
        (toI8 (s._relativeEncoderTicks encoderIndex + (if ccWise then -ticks else ticks))) }
    let s2 := { s1 with
      _encoderPosition := Function.update s1._encoderPosition encoderIndex
        ((data.getD 1 0 ||| (data.getD 2 0 <<< 8)) % 65536) }
    (RS_SUCCESS, s2)

/-- Body of the loop of `Pkp::_decodeWiredInputs` for channel `i`; `value` is a
`uint32_t`, the product is formed in `unsigned long` and stored as `uint8_t`. -/
def decodeWiredStep (data : List Nat) (s : Pkp) (i : Nat) : Pkp :=
  let value : Nat := (data.getD (i * 2) 0 ||| (data.getD (i * 2 + 1) 0 <<< 8)) % 2 ^ 32
  let value := min value 500
  { s with _wiredInputValue := Function.update s._wiredInputValue i ((value * 255 / 500) % 256) }

/-- Source `Pkp::_decodeWiredInputs`. -/
def _decodeWiredInputs (s : Pkp) (data : List Nat) : returnState_e × Pkp :=
  (RS_SUCCESS, (List.range PKP_MAX_WIRED_IN_AMOUNT).foldl (decodeWiredStep data) s)

/-! ## Initialisation and watchdog -/

/-- Body of the encoder loop of `Pkp::_initializeKeypad`: stops at the first failure. -/
def initEncoderLoop (s : Pkp) : List Nat → returnState_e × Pkp
  | [] => (RS_SUCCESS, s)
  | i :: rest =>
    let r := initializeEncoder s i (s._encoderTopValue i) (s._encoderInitValue i)
    if r.1 ≠ RS_SUCCESS then r else initEncoderLoop r.2 rest

/-- Second half of `Pkp::_initializeKeypad`, from `_initialized = true` on. -/
def initializeKeypadTail (s : Pkp) : returnState_e × Pkp :=
  let s1 : Pkp := { s with _initialized := true }
  let b := setBacklight s1 (toI8 s1._backlightColor) (toI8 s1._backlightBrightness)
  if b.1 ≠ RS_SUCCESS then b
  else
    let k := setKeyBrightness b.2 b.2._keyBrightness
    if k.1 ≠ RS_SUCCESS then k
    else
      let e := initEncoderLoop k.2 (List.range PKP_MAX_ROTARY_ENCODER_AMOUNT)
      if e.1 ≠ RS_SUCCESS then e
      else _update e.2 UT_ALL

/-- The startup frame of `Pkp::_initializeKeypad`. -/
def startupFrame (s : Pkp) : can_frame :=
  { can_id := 0x00, can_dlc := 2, data := [0x01, s._canId, 0, 0, 0, 0, 0, 0] }

/-- The heartbeat configuration frame of `Pkp::_initializeKeypad`. -/
def heartbeatFrame (s : Pkp) : can_frame :=
  { can_id := CAN_TX_BASE_ID_SDO + s._canId
    can_dlc := 6
    data := [0x2B, 0x17, 0x10, 0x00,
             s._canNodeHeartbeatInterval &&& 0xFF,
             (s._canNodeHeartbeatInterval >>> 8) % 256, 0, 0] }

/-- Source `Pkp::_initializeKeypad`. -/
def _initializeKeypad (s : Pkp) : returnState_e × Pkp :=
  let r := _transmit s (startupFrame s) true
  if r.1 ≠ RS_SUCCESS then r
  else if r.2._canNodeHeartbeatInterval > 0 then
    let h := _transmit r.2 (heartbeatFrame r.2) true
    if h.1 ≠ RS_SUCCESS then h else initializeKeypadTail h.2
  else initializeKeypadTail r.2

/-- Source `Pkp::_keypadStatusWatchdog`; `currentMillis` is the value of `millis()`. -/
def _keypadStatusWatchdog (s : Pkp) (currentMillis : Nat) (action : keypadStatusUpdate_e) :
    keypadCanStatus_e × Pkp :=
  match action with
  | MSG_RECEIVED_VALID =>
    let s1 := { s with _lastCanFrameTimestamp := currentMillis }
    let s2 := { s1 with _keypadCanStatus := KPS_RX_WITHIN_LAST_SECOND }
    (s2._keypadCanStatus, s2)
  | MSG_RECEIVED_NOTHING =>
    if subU32 currentMillis s._lastCanFrameTimestamp ≥ s._canNodeWatchdogTime then
      let s1 := { s with _keypadCanStatus := KPS_NO_RX_WITHIN_LAST_SECOND }
      let s2 := { s1 with
        _keyState := fun i => if i < PKP_MAX_KEY_AMOUNT then s1._defaultKeyState i else s1._keyState i }
      let s3 :=
        if subU32 currentMillis s2._lastReconnectTry > s2._canNodeReconnectInterval then
          { (_initializeKeypad s2).2 with _lastReconnectTry := currentMillis }
        else s2
      (s3._keypadCanStatus, s3)
    else (s._keypadCanStatus, s)

/-- Source `Pkp::begin`. -/
def begin (s : Pkp) : returnState_e × Pkp := _initializeKeypad s

/-- Source `Pkp::getStatus`. -/
def getStatus (s : Pkp) (currentMillis : Nat) : keypadCanStatus_e × Pkp :=
  _keypadStatusWatchdog s currentMillis MSG_RECEIVED_NOTHING

/-- Source `Pkp::process`: whether the frame was handled, and the driver afterwards. -/
def process (s : Pkp) (currentMillis : Nat) (rxMsg : can_frame) : Bool × Pkp :=
  if rxMsg.can_id = CAN_RX_BASE_ID_KEYS + s._canId then
    (true, (_keypadStatusWatchdog (_decodeKeyStates s rxMsg.data).2 currentMillis MSG_RECEIVED_VALID).2)
  else if rxMsg.can_id = CAN_RX_BASE_ID_ENCODER_1 + s._canId then
    (true, (_keypadStatusWatchdog (_decodeRotaryEncoder s rxMsg.data 0).2 currentMillis MSG_RECEIVED_VALID).2)
  else if rxMsg.can_id = CAN_RX_BASE_ID_ENCODER_2 + s._canId then
    (true, (_keypadStatusWatchdog (_decodeRotaryEncoder s rxMsg.data 1).2 currentMillis MSG_RECEIVED_VALID).2)
  else if rxMsg.can_id = CAN_RX_BASE_ID_WIRED_IN + s._canId then
    (true, (_keypadStatusWatchdog (_decodeWiredInputs s rxMsg.data).2 currentMillis MSG_RECEIVED_VALID).2)
  else if rxMsg.can_id = CAN_RX_BASE_ID_HEARTBEAT + s._canId then
    (true, (_keypadStatusWatchdog s currentMillis MSG_RECEIVED_VALID).2)
  else
    (false, (_keypadStatusWatchdog s currentMillis MSG_RECEIVED_NOTHING).2)

/-- The driver after `process` has handled the frames of `inputs` in order, each paired
with the clock value at its call. -/
def processAll (s : Pkp) (inputs : List (Nat × can_frame)) : Pkp :=
  inputs.foldl (fun st x => (process st x.1 x.2).2) s

/-! ## Vocabulary of the statements -/

/-- The members of key `k`: pressed, last pressed, state, mode, override. -/
def keyView (s : Pkp) (k : Nat) : Bool × Bool × Nat × Nat × Int :=
  (s._keyPressed k, s._lastKeyPressed k, s._keyState k, s._keyMode k, s._overrideKeyState k)

/-- The driver `t` differs from `s` at most in the log of transmitted frames. -/
def OnlyLog (s t : Pkp) : Prop := t = { s with txLog := t.txLog }

/-- Number of press edges (released, then pressed) in a sequence of readings of one key
that starts from the reading `last`. -/
def pressEdges (last : Bool) : List Bool → Nat
  | [] => 0
  | b :: bs => (if !last && b then 1 else 0) + pressEdges b bs

/-- Whether `process` recognises the identifier `id` for node address `canId`. -/
def recognized (canId id : Nat) : Prop :=
  id = CAN_RX_BASE_ID_KEYS + canId ∨ id = CAN_RX_BASE_ID_ENCODER_1 + canId ∨
  id = CAN_RX_BASE_ID_ENCODER_2 + canId ∨ id = CAN_RX_BASE_ID_WIRED_IN + canId ∨
  id = CAN_RX_BASE_ID_HEARTBEAT + canId

instance (canId id : Nat) : Decidable (recognized canId id) := by
  unfold recognized; infer_instance

/-- A driver for the examples: node address 0x15, a transmit callback that always
succeeds, heartbeat every 500 ms. -/
def demoDriver : Pkp := ctor 0x15 (some (fun _ _ => 0)) 500 false

/-- A key-status frame for `demoDriver` with the two key bytes `b0`, `b1`. -/
def demoKeyFrame (b0 b1 : Nat) : can_frame :=
  { can_id := 0x180 + 0x15, can_dlc := 8, data := [b0, b1, 0, 0, 0, 0, 0, 0] }

/-- The driver `t` differs from `s` at most in the members that the init sequence and the
LED updates write: the log, the encoder LED values, the backlight and brightness
settings, the encoder configuration and the initialized flag. -/
def InitFoot (s t : Pkp) : Prop :=
  t = { s with
    txLog := t.txLog
    _currentEncoderLed := t._currentEncoderLed
    _backlightBrightness := t._backlightBrightness
    _backlightColor := t._backlightColor
    _keyBrightness := t._keyBrightness
    _encoderTopValue := t._encoderTopValue
    _encoderInitValue := t._encoderInitValue
    _initialized := t._initialized }

/-- The driver `t` differs from `s` at most in the members written when an encoder,
wired-input or heartbeat frame is handled. -/
def RxFoot (s t : Pkp) : Prop :=
  t = { s with
    _relativeEncoderTicks := t._relativeEncoderTicks
    _encoderPosition := t._encoderPosition
    _wiredInputValue := t._wiredInputValue
    _lastCanFrameTimestamp := t._lastCanFrameTimestamp
    _keypadCanStatus := t._keypadCanStatus }

/-- The driver `t` differs from `s` at most in the members that a "nothing received"
evaluation of the watchdog writes. -/
def WatchFoot (s t : Pkp) : Prop :=
  t = { s with
    txLog := t.txLog
    _currentEncoderLed := t._currentEncoderLed
    _backlightBrightness := t._backlightBrightness
    _backlightColor := t._backlightColor
    _keyBrightness := t._keyBrightness
    _encoderTopValue := t._encoderTopValue
    _encoderInitValue := t._encoderInitValue
    _initialized := t._initialized
    _keypadCanStatus := t._keypadCanStatus
    _keyState := t._keyState
    _lastReconnectTry := t._lastReconnectTry }

/-- Raw 16-bit reading of wired-input channel `i` in a payload: `data[2i] + 256 * data[2i+1]`. -/
def wiredRaw (data : List Nat) (i : Nat) : Nat :=
  data.getD (2 * i) 0 + 256 * data.getD (2 * i + 1) 0

/-- An encoder-1 frame for `demoDriver` with first payload byte `b0`. -/
def demoEncoderFrame (b0 : Nat) : can_frame :=
  { can_id := 0x280 + 0x15, can_dlc := 8, data := [b0, 0, 0, 0, 0, 0, 0, 0] }

/-- A wired-input frame for `demoDriver` whose four channels read 500, 0, 1000 and 250. -/
def demoWiredFrame : can_frame :=
  { can_id := 0x480 + 0x15, can_dlc := 8, data := [0xF4, 0x01, 0, 0, 0xE8, 0x03, 0xFA, 0] }

/-- The driver `t` differs from `s` at most in the members that the configuration pushes
of the init sequence write: the log, the encoder LED values, the backlight and brightness
settings and the encoder configuration. -/
def CfgFoot (s t : Pkp) : Prop :=
  t = { s with
    txLog := t.txLog
    _currentEncoderLed := t._currentEncoderLed
    _backlightBrightness := t._backlightBrightness
    _backlightColor := t._backlightColor
    _keyBrightness := t._keyBrightness
    _encoderTopValue := t._encoderTopValue
    _encoderInitValue := t._encoderInitValue }

/-- The startup announce and, when heartbeat production is configured, the heartbeat
configuration frame of the init sequence are both accepted by the transmit callback. -/
def handshakeOk (s : Pkp) : Prop :=
  (_transmit s (startupFrame s) true).1 = RS_SUCCESS ∧
  (s._canNodeHeartbeatInterval > 0 →
    (_transmit (_transmit s (startupFrame s) true).2
      (heartbeatFrame (_transmit s (startupFrame s) true).2) true).1 = RS_SUCCESS)

/-- A driver whose transmit callback fails on its third frame (the backlight frame of
the init sequence) and succeeds otherwise. -/
def failThirdDriver : Pkp :=
  ctor 0x15 (some (fun log _ => if log.length = 2 then 1 else 0)) 500 false

/-- The driver `t` differs from `s` at most in the default key states. -/
def DefFoot (s t : Pkp) : Prop := t = { s with _defaultKeyState := t._defaultKeyState }

/-- The byte that the packing loop of `Pkp::_writeKeyLeds` builds from the bits of keys
1 to 8 (or 9 to 15, with `b7 = false`), least significant first. -/
def packByte (b0 b1 b2 b3 b4 b5 b6 b7 : Bool) : Nat :=
  (((((((b0.toNat <<< 0 % 256 ||| b1.toNat <<< 1) % 256 ||| b2.toNat <<< 2) % 256
    ||| b3.toNat <<< 3) % 256 ||| b4.toNat <<< 4) % 256 ||| b5.toNat <<< 5) % 256
    ||| b6.toNat <<< 6) % 256 ||| b7.toNat <<< 7) % 256

/-- The three colour bits (red, green, blue) of an RGB bitfield. -/
def rgbBits (c : Nat) : Bool × Bool × Bool :=
  (((c >>> 2) &&& 1) != 0, ((c >>> 1) &&& 1) != 0, (c &&& 1) != 0)

/-- The three bits carried for key `k` in a key LED frame: bit `k mod 8` of the red,
green and blue byte of the key's half. -/
def frameKeyBits (f : can_frame) (k : Nat) : Bool × Bool × Bool :=
  (checkBit (f.byte (0 + (if k > 7 then 1 else 0))) (k % 8),
   checkBit (f.byte (2 + (if k > 7 then 1 else 0))) (k % 8),
   checkBit (f.byte (4 + (if k > 7 then 1 else 0))) (k % 8))

/-- The driver after the watchdog has declared the link down and has reset the key states
to their defaults, before it decides on a reconnect attempt. -/
def linkDownState (s : Pkp) : Pkp :=
  { s with
    _keypadCanStatus := KPS_NO_RX_WITHIN_LAST_SECOND
    _keyState := fun i => if i < PKP_MAX_KEY_AMOUNT then s._defaultKeyState i else s._keyState i }

/-- A heartbeat frame of the keypad of `demoDriver`. -/
def demoHeartbeatFrame : can_frame :=
  { can_id := 0x700 + 0x15, can_dlc := 1, data := [5, 0, 0, 0, 0, 0, 0, 0] }

/-- Identifier of the frames that carry the ticks of encoder `i`, for node address `canId`. -/
def encoderFrameId (canId i : Nat) : Nat :=
  (if i = 0 then CAN_RX_BASE_ID_ENCODER_1 else CAN_RX_BASE_ID_ENCODER_2) + canId

/-- The driver `t` differs from `s` at most in the members that the loop of
`_decodeKeyStates` writes, and in the log. -/
def KeysFoot (s t : Pkp) : Prop :=
  t = { s with
    _keyPressed := t._keyPressed
    _keyState := t._keyState
    _lastKeyPressed := t._lastKeyPressed
    txLog := t.txLog }

/-- The driver `t` differs from `s` at most in the key colours and in the log. -/
def ColorFoot (s t : Pkp) : Prop :=
  t = { s with
    _keyColor := t._keyColor
    _keyBlinkColor := t._keyBlinkColor
    txLog := t.txLog }

/-- The range invariant of the key records: logical state and default state in 0..3,
override in -1..3, for each of the 15 keys. -/
def KeyInv (s : Pkp) : Prop :=
  ∀ k, k < PKP_MAX_KEY_AMOUNT →
    s._keyState k ≤ 3 ∧ s._defaultKeyState k ≤ 3 ∧
    -1 ≤ s._overrideKeyState k ∧ s._overrideKeyState k ≤ 3

/-- The drivers reachable from construction by the public operations that write the
driver, with any arguments, inbound frames, clock values and transmit callback. The
accessors `getEncoderPosition`, `getKeyPress`, `getKeyState` and `getWiredInput` only read
the driver. -/
inductive Reachable : Pkp → Prop where
  | byCtor (canId : Nat) (callback : Option CanMsgTxCallback) (heartBeatInterval : Nat)
      (maxEvalTwice : Bool) :
      Reachable (Pkp.ctor canId callback heartBeatInterval maxEvalTwice)
  | byApplyDefaultKeyStates {s : Pkp} : Reachable s → Reachable (Pkp.applyDefaultKeyStates s).2
  | byBegin {s : Pkp} : Reachable s → Reachable (Pkp.begin s).2
  | byGetRelativeEncoderTicks {s : Pkp} (i : Nat) :
      Reachable s → Reachable (Pkp.getRelativeEncoderTicks s i).2
  | byGetStatus {s : Pkp} (now : Nat) : Reachable s → Reachable (Pkp.getStatus s now).2
  | byInitializeEncoder {s : Pkp} (i t a : Nat) :
      Reachable s → Reachable (Pkp.initializeEncoder s i t a).2
  | byPresetDefaultKeyStates {s : Pkp} (d : Nat → Int) :
      Reachable s → Reachable (Pkp.presetDefaultKeyStates s d).2
  | byProcess {s : Pkp} (now : Nat) (f : can_frame) :
      Reachable s → Reachable (Pkp.process s now f).2
  | bySetBacklight {s : Pkp} (c b : Int) : Reachable s → Reachable (Pkp.setBacklight s c b).2
  | bySetEncoderLeds {s : Pkp} (leds : Nat → Int) :
      Reachable s → Reachable (Pkp.setEncoderLeds s leds).2
  | bySetKeyBrightness {s : Pkp} (b : Nat) : Reachable s → Reachable (Pkp.setKeyBrightness s b).2
  | bySetKeyColor {s : Pkp} (k : Nat) (colors blinkColors : Nat → Nat) :
      Reachable s → Reachable (Pkp.setKeyColor s k colors blinkColors).2
  | bySetKeyMode {s : Pkp} (k m : Nat) : Reachable s → Reachable (Pkp.setKeyMode s k m).2
  | bySetKeyStateOverride {s : Pkp} (k : Nat) (v : Int) :
      Reachable s → Reachable (Pkp.setKeyStateOverride s k v).2

/-- The driver `t` differs from `s` at most in the members that the configuration part of
the init sequence writes: the log, the initialized flag, the backlight and brightness
settings and the encoder configuration. -/
def SetupFoot (s t : Pkp) : Prop :=
  t = { s with
    txLog := t.txLog
    _initialized := t._initialized
    _backlightBrightness := t._backlightBrightness
    _backlightColor := t._backlightColor
    _keyBrightness := t._keyBrightness
    _encoderTopValue := t._encoderTopValue
    _encoderInitValue := t._encoderInitValue }

theorem OnlyLog.reflLog (s : Pkp) : OnlyLog s s := rfl

theorem OnlyLog.transLog {s t u : Pkp} (h1 : OnlyLog s t) (h2 : OnlyLog t u) : OnlyLog s u := by
  unfold OnlyLog at *
  rw [h2, h1]

theorem OnlyLog.keyView {s t : Pkp} (h : OnlyLog s t) (k : Nat) : keyView t k = keyView s k := by
  rw [h]; rfl

theorem transmit_onlyLog (s : Pkp) (m : can_frame) (b : Bool) : OnlyLog s (_transmit s m b).2 := by
  unfold OnlyLog _transmit
  split
  · rfl
  · split
    · rfl
    · split <;> rfl

theorem writeKeyLeds_onlyLog (s : Pkp) (mode : Bool) : OnlyLog s (_writeKeyLeds s mode).2 :=
  transmit_onlyLog s _ false

/-- What holds between a driver and the driver after a call, and is transitive, holds
across `max(returnValue, call)`, which makes the call once or twice. -/
theorem maxCall_rel (R : Pkp → Pkp → Prop) (htrans : ∀ a b c, R a b → R b c → R a c)
    (call : Pkp → returnState_e × Pkp) (hcall : ∀ t, R t (call t).2)
    (rv : returnState_e) (s : Pkp) : R s (maxCall rv call s).2 := by
  unfold maxCall
  simp only []
  split_ifs
  · exact hcall s
  · exact htrans _ _ _ (hcall s) (hcall _)
  · exact hcall s

/-- A call that is refused with the code `c` and leaves the driver as it is yields `c`
through `max`, for a `returnValue` not above `c`. -/
theorem maxCall_of_fixed (rv c : returnState_e) (call : Pkp → returnState_e × Pkp) (s : Pkp)
    (h : call s = (c, s)) (hle : rv.toNat ≤ c.toNat) : maxCall rv call s = (c, s) := by
  unfold maxCall
  simp only [h]
  split_ifs with a b
  · exact absurd b (by omega)
  · rfl
  · unfold rsMax
    rw [if_neg (by omega)]

theorem update_keyLeds_eq (s : Pkp) :
    _update s UT_KEY_LEDS =
      maxCall (maxCall RS_SUCCESS (fun t => _writeKeyLeds t CM_SOLID) s).1
        (fun t => _writeKeyLeds t CM_BLINK)
        (maxCall RS_SUCCESS (fun t => _writeKeyLeds t CM_SOLID) s).2 := by
  simp [_update, updateType_e.toNat]

theorem update_encoderLeds_eq (s : Pkp) :
    _update s UT_ENCODER_LEDS = maxCall RS_SUCCESS _writeEncoderLeds s := by
  simp [_update, updateType_e.toNat]

theorem update_all_eq (s : Pkp) :
    _update s UT_ALL =
      maxCall (_update s UT_KEY_LEDS).1 _writeEncoderLeds (_update s UT_KEY_LEDS).2 := by
  simp [_update, updateType_e.toNat]

theorem update_keyLeds_onlyLog (s : Pkp) : OnlyLog s (_update s UT_KEY_LEDS).2 := by
  rw [update_keyLeds_eq]
  exact (maxCall_rel OnlyLog (fun _ _ _ => OnlyLog.transLog) _
      (fun t => writeKeyLeds_onlyLog t CM_SOLID) _ s).transLog
    (maxCall_rel OnlyLog (fun _ _ _ => OnlyLog.transLog) _
      (fun t => writeKeyLeds_onlyLog t CM_BLINK) _ _)

theorem maxCall_update_keyLeds_onlyLog (rv : returnState_e) (s : Pkp) :
    OnlyLog s (maxCall rv (fun t => _update t UT_KEY_LEDS) s).2 :=
  maxCall_rel OnlyLog (fun _ _ _ => OnlyLog.transLog) _ update_keyLeds_onlyLog rv s

/-! ## Lemmas on the key decoder -/

theorem decodeKeyStep_other (data : List Nat) (s : Pkp) (i k : Nat) (h : i ≠ k) :
    keyView (decodeKeyStep data s i) k = keyView s k := by
  have h' : k ≠ i := fun e => h e.symm
  simp [decodeKeyStep, keyView, Function.update, h']

theorem decodeKeyStep_self (data : List Nat) (s : Pkp) (k : Nat) :
    keyView (decodeKeyStep data s k) k =
      (keyBit data k, keyBit data k,
        (if s._overrideKeyState k ≥ 0 then toU8 (s._overrideKeyState k)
         else if s._lastKeyPressed k = keyBit data k then s._keyState k
         else if s._keyMode k = KEY_MODE_MOMENTARY then (keyBit data k).toNat
         else if keyBit data k = false then s._keyState k
         else if s._keyMode k = KEY_MODE_TOGGLE then (if s._keyState k = 0 then 1 else 0)
         else if s._keyMode k = KEY_MODE_CYCLE3 then
           (if s._keyState k < 2 then (s._keyState k + 1) % 256 else 0)
         else if s._keyMode k = KEY_MODE_CYCLE4 then
           (if s._keyState k < 3 then (s._keyState k + 1) % 256 else 0)
         else s._keyState k),
        s._keyMode k, s._overrideKeyState k) := by
  simp only [decodeKeyStep, keyView, Function.update_same]
  refine Prod.ext ?_ (Prod.ext ?_ (Prod.ext ?_ rfl))
  · rfl
  · simp only []
    by_cases h : s._lastKeyPressed k = keyBit data k <;> simp [h]
  · simp only []
    by_cases h : s._lastKeyPressed k = keyBit data k
    · simp [h]
    · simp [h]
      cases keyBit data k <;> simp

theorem decodeKeyStep_congr (data : List Nat) (s t : Pkp) (k : Nat)
    (h : keyView s k = keyView t k) :
    keyView (decodeKeyStep data s k) k = keyView (decodeKeyStep data t k) k := by
  rw [decodeKeyStep_self, decodeKeyStep_self]
  simp only [keyView, Prod.mk.injEq] at h
  obtain ⟨_, h2, h3, h4, h5⟩ := h
  rw [h2, h3, h4, h5]

theorem foldl_decodeKeyStep_not_mem (data : List Nat) (k : Nat) (l : List Nat) (s : Pkp)
    (h : k ∉ l) : keyView (l.foldl (decodeKeyStep data) s) k = keyView s k := by
  induction l generalizing s with
  | nil => rfl
  | cons i l ih =>
    simp only [List.mem_cons, not_or] at h
    rw [List.foldl_cons, ih _ h.2]
    exact decodeKeyStep_other data s i k (fun e => h.1 e.symm)

theorem foldl_decodeKeyStep_mem (data : List Nat) (k : Nat) (l : List Nat) (s : Pkp)
    (hn : l.Nodup) (h : k ∈ l) :
    keyView (l.foldl (decodeKeyStep data) s) k = keyView (decodeKeyStep data s k) k := by
  induction l generalizing s with
  | nil => simp at h
  | cons i l ih =>
    rw [List.nodup_cons] at hn
    rw [List.foldl_cons]
    by_cases e : i = k
    · subst e
      exact foldl_decodeKeyStep_not_mem data i l _ hn.1
    · have hk : k ∈ l := by
        rcases List.mem_cons.1 h with h | h
        · exact absurd h.symm e
        · exact h
      rw [ih _ hn.2 hk]
      exact decodeKeyStep_congr data _ _ k (decodeKeyStep_other data s i k e)

theorem decodeKeyStates_keyView (s : Pkp) (data : List Nat) (k : Nat)
    (hk : k < PKP_MAX_KEY_AMOUNT) :
    keyView (_decodeKeyStates s data).2 k = keyView (decodeKeyStep data s k) k := by
  unfold _decodeKeyStates
  rw [(update_keyLeds_onlyLog _).keyView]
  exact foldl_decodeKeyStep_mem data k _ s (List.nodup_range _) (List.mem_range.2 hk)

theorem foldl_decodeKeyStep_canId (data : List Nat) (l : List Nat) (s : Pkp) :
    (l.foldl (decodeKeyStep data) s)._canId = s._canId := by
  induction l generalizing s with
  | nil => rfl
  | cons i l ih => rw [List.foldl_cons, ih]; rfl

theorem OnlyLog.canId {s t : Pkp} (h : OnlyLog s t) : t._canId = s._canId := by
  rw [h]

theorem process_keys (s : Pkp) (now : Nat) (f : can_frame)
    (h : f.can_id = CAN_RX_BASE_ID_KEYS + s._canId) :
    process s now f =
      (true, (_keypadStatusWatchdog (_decodeKeyStates s f.data).2 now MSG_RECEIVED_VALID).2) := by
  simp [process, h]

theorem watchdog_valid_keyView (s : Pkp) (now k : Nat) :
    keyView (_keypadStatusWatchdog s now MSG_RECEIVED_VALID).2 k = keyView s k := rfl

theorem process_keys_keyView (s : Pkp) (now : Nat) (f : can_frame) (k : Nat)
    (hk : k < PKP_MAX_KEY_AMOUNT) (h : f.can_id = CAN_RX_BASE_ID_KEYS + s._canId) :
    keyView (process s now f).2 k = keyView (decodeKeyStep f.data s k) k := by
  rw [process_keys s now f h]
  show keyView (_keypadStatusWatchdog _ now MSG_RECEIVED_VALID).2 k = _
  rw [watchdog_valid_keyView, decodeKeyStates_keyView _ _ _ hk]

theorem process_keys_canId (s : Pkp) (now : Nat) (f : can_frame)
    (h : f.can_id = CAN_RX_BASE_ID_KEYS + s._canId) :
    (process s now f).2._canId = s._canId := by
  rw [process_keys s now f h]
  show (_decodeKeyStates s f.data).2._canId = _
  unfold _decodeKeyStates
  rw [(update_keyLeds_onlyLog _).canId, foldl_decodeKeyStep_canId]

theorem getKeyState_eq (s : Pkp) (k : Nat) (hk : k < PKP_MAX_KEY_AMOUNT) :
    getKeyState s k = (keyView s k).2.2.1 := by
  unfold PKP_MAX_KEY_AMOUNT at hk
  simp [getKeyState, keyView, PKP_MAX_KEY_AMOUNT]
  omega

theorem cycle_aux (k N mode : Nat) (hk : k < PKP_MAX_KEY_AMOUNT)
    (hN : (mode = KEY_MODE_CYCLE3 ∧ N = 3) ∨ (mode = KEY_MODE_CYCLE4 ∧ N = 4))
    (inputs : List (Nat × can_frame)) :
    ∀ (s : Pkp) (b : Bool) (n : Nat),
      (∀ x ∈ inputs, x.2.can_id = CAN_RX_BASE_ID_KEYS + s._canId) →
      keyView s k = (s._keyPressed k, b, n, mode, -1) → n < N →
      getKeyState (processAll s inputs) k
        = (n + pressEdges b (inputs.map (fun x => keyBit x.2.data k))) % N := by
  induction inputs with
  | nil =>
    intro s b n _ hv hn
    rw [getKeyState_eq _ _ hk]
    simp [processAll, pressEdges, hv, Nat.mod_eq_of_lt hn]
  | cons x rest ih =>
    intro s b n hid hv hn
    have hx := hid x (List.mem_cons_self _ _)
    have hv' := process_keys_keyView s x.1 x.2 k hk hx
    rw [decodeKeyStep_self] at hv'
    simp only [keyView, Prod.mk.injEq] at hv
    obtain ⟨-, h2, h3, h4, h5⟩ := hv
    rw [h2, h3, h4, h5] at hv'
    have hc := process_keys_canId s x.1 x.2 hx
    have step := ih (process s x.1 x.2).2 (keyBit x.2.data k)
      ((n + (if !b && keyBit x.2.data k then 1 else 0)) % N)
      (fun y hy => by rw [hc]; exact hid y (List.mem_cons_of_mem _ hy))
      (by
        rw [hv']
        refine Prod.ext ?_ (Prod.ext rfl (Prod.ext ?_ rfl))
        · simp [keyView] at hv' ⊢
          exact hv'.1.symm
        · rcases hN with ⟨rfl, rfl⟩ | ⟨rfl, rfl⟩ <;>
            cases b <;> cases keyBit x.2.data k <;>
            simp [KEY_MODE_MOMENTARY, KEY_MODE_TOGGLE, KEY_MODE_CYCLE3, KEY_MODE_CYCLE4] <;>
            (try split_ifs) <;> omega)
      (by rcases hN with ⟨_, rfl⟩ | ⟨_, rfl⟩ <;> omega)
    show getKeyState (processAll (process s x.1 x.2).2 rest) k = _
    rw [step]
    simp only [List.map_cons, pressEdges]
    rcases hN with ⟨_, rfl⟩ | ⟨_, rfl⟩ <;> omega

/-! ## Key state machine -/

/-- Claim C1. A key in cycle-3 (resp. cycle-4) mode with no override, released and in
logical state 0: after `process` has handled any sequence of key-status frames,
`getKeyState` returns the number of press edges of that key modulo 3 (resp. 4), for any
payload bits of the other keys, any clock values and any transmit callback. -/
theorem cycle_state_counts_press_edges (s : Pkp) (k : Nat) (inputs : List (Nat × can_frame))
    (hk : k < PKP_MAX_KEY_AMOUNT)
    (hid : ∀ x ∈ inputs, x.2.can_id = CAN_RX_BASE_ID_KEYS + s._canId)
    (ho : s._overrideKeyState k = -1) (hl : s._lastKeyPressed k = false)
    (hs : s._keyState k = 0) :
    (s._keyMode k = KEY_MODE_CYCLE3 →
      getKeyState (processAll s inputs) k
        = pressEdges false (inputs.map (fun x => keyBit x.2.data k)) % 3) ∧
    (s._keyMode k = KEY_MODE_CYCLE4 →
      getKeyState (processAll s inputs) k
        = pressEdges false (inputs.map (fun x => keyBit x.2.data k)) % 4) := by
  constructor
  · intro hm
    have h := cycle_aux k 3 KEY_MODE_CYCLE3 hk (Or.inl ⟨rfl, rfl⟩) inputs s false 0 hid
      (by simp [keyView, ho, hl, hs, hm]) (by omega)
    simpa using h
  · intro hm
    have h := cycle_aux k 4 KEY_MODE_CYCLE4 hk (Or.inr ⟨rfl, rfl⟩) inputs s false 0 hid
      (by simp [keyView, ho, hl, hs, hm]) (by omega)
    simpa using h

set_option maxRecDepth 100000 in
/-- Claim C1, example: key 4 in cycle-3 mode, pressed four times, ends in state 1. -/
theorem cycle_state_counts_press_edges_witness :
    getKeyState
      (processAll (setKeyMode demoDriver 3 KEY_MODE_CYCLE3).2
        [(10, demoKeyFrame 8 0), (20, demoKeyFrame 0 0), (30, demoKeyFrame 9 0),
         (40, demoKeyFrame 1 0), (50, demoKeyFrame 8 0), (60, demoKeyFrame 8 1),
         (70, demoKeyFrame 0 0), (80, demoKeyFrame 8 0)]) 3 = 1 :=
  ((cycle_state_counts_press_edges (setKeyMode demoDriver 3 KEY_MODE_CYCLE3).2 3
      [(10, demoKeyFrame 8 0), (20, demoKeyFrame 0 0), (30, demoKeyFrame 9 0),
       (40, demoKeyFrame 1 0), (50, demoKeyFrame 8 0), (60, demoKeyFrame 8 1),
       (70, demoKeyFrame 0 0), (80, demoKeyFrame 8 0)]
      (by decide) (by decide) (by decide) (by decide) (by decide)).1 (by decide)).trans
    (by decide)

/-- Claim C2. A key in toggle mode with no override and logical state 0 or 1: decoding a
key-status frame that is a press edge for the key leaves it in state `1 - s`; decoding a
frame that is a release edge or no edge leaves its state unchanged. -/
theorem toggle_flips_on_press_edge_only (s : Pkp) (k : Nat) (data : List Nat)
    (hk : k < PKP_MAX_KEY_AMOUNT) (hm : s._keyMode k = KEY_MODE_TOGGLE)
    (ho : s._overrideKeyState k = -1) (hs : s._keyState k ≤ 1) :
    (s._lastKeyPressed k = false ∧ keyBit data k = true →
      getKeyState (_decodeKeyStates s data).2 k = 1 - s._keyState k) ∧
    (¬ (s._lastKeyPressed k = false ∧ keyBit data k = true) →
      getKeyState (_decodeKeyStates s data).2 k = s._keyState k) := by
  rw [getKeyState_eq _ _ hk, decodeKeyStates_keyView _ _ _ hk, decodeKeyStep_self]
  simp only [hm, ho]
  constructor
  · rintro ⟨h1, h2⟩
    simp [h1, h2, KEY_MODE_TOGGLE, KEY_MODE_MOMENTARY]
    split_ifs <;> omega
  · intro h
    cases h1 : s._lastKeyPressed k <;> cases h2 : keyBit data k <;>
      simp_all [KEY_MODE_TOGGLE, KEY_MODE_MOMENTARY]

set_option maxRecDepth 100000 in
/-- Claim C2, example: key 1 in toggle mode, state 0, pressed: state 1. -/
theorem toggle_flips_on_press_edge_only_witness :
    getKeyState (_decodeKeyStates (setKeyMode demoDriver 0 KEY_MODE_TOGGLE).2 [1, 0]).2 0 = 1 :=
  (toggle_flips_on_press_edge_only (setKeyMode demoDriver 0 KEY_MODE_TOGGLE).2 0 [1, 0]
    (by decide) (by decide) (by decide) (by decide)).1 ⟨by decide, by decide⟩

/-- Claim C3. A key in momentary mode with no override: after decoding a key-status frame
whose bit for the key differs from the previously decoded reading, `getKeyState` is 1 if
the key is now pressed and 0 if it is now released, that is, it agrees with `getKeyPress`. -/
theorem momentary_mirrors_pressed (s : Pkp) (k : Nat) (data : List Nat)
    (hk : k < PKP_MAX_KEY_AMOUNT) (hm : s._keyMode k = KEY_MODE_MOMENTARY)
    (ho : s._overrideKeyState k = -1) (he : s._lastKeyPressed k ≠ keyBit data k) :
    getKeyPress (_decodeKeyStates s data).2 k = keyBit data k ∧
    getKeyState (_decodeKeyStates s data).2 k
      = (if getKeyPress (_decodeKeyStates s data).2 k then 1 else 0) := by
  have hv := decodeKeyStates_keyView s data k hk
  rw [decodeKeyStep_self] at hv
  have hp : getKeyPress (_decodeKeyStates s data).2 k = keyBit data k := by
    have : getKeyPress (_decodeKeyStates s data).2 k = (keyView (_decodeKeyStates s data).2 k).1 := by
      unfold PKP_MAX_KEY_AMOUNT at hk
      simp [getKeyPress, keyView, PKP_MAX_KEY_AMOUNT]
      omega
    rw [this, hv]
  refine ⟨hp, ?_⟩
  rw [hp, getKeyState_eq _ _ hk, hv]
  simp only [hm, ho]
  rw [if_neg (by decide), if_neg he, if_pos trivial]
  cases keyBit data k <;> rfl

set_option maxRecDepth 100000 in
/-- Claim C3, example: key 2 in momentary mode is pressed: state 1. -/
theorem momentary_mirrors_pressed_witness :
    getKeyState (_decodeKeyStates demoDriver [2, 0]).2 1 = 1 :=
  (momentary_mirrors_pressed demoDriver 1 [2, 0]
    (by decide) (by decide) (by decide) (by decide)).2.trans (by decide)

/-! ## Footprints -/

theorem InitFoot.reflInit (s : Pkp) : InitFoot s s := rfl

theorem InitFoot.transInit {s t u : Pkp} (h1 : InitFoot s t) (h2 : InitFoot t u) : InitFoot s u := by
  unfold InitFoot at *
  rw [h2, h1]

theorem OnlyLog.initFoot {s t : Pkp} (h : OnlyLog s t) : InitFoot s t := by
  unfold InitFoot OnlyLog at *
  rw [h]

theorem InitFoot.watchFoot {s t : Pkp} (h : InitFoot s t) : WatchFoot s t := by
  unfold InitFoot WatchFoot at *
  rw [h]

theorem foldl_encoderLedStep_initFoot (l : List Nat) (acc : Bool × Pkp) :
    InitFoot acc.2 (l.foldl encoderLedStep acc).2 := by
  induction l generalizing acc with
  | nil => exact InitFoot.reflInit _
  | cons i l ih =>
    rw [List.foldl_cons]
    refine InitFoot.transInit ?_ (ih _)
    unfold encoderLedStep
    split
    · rfl
    · rfl

theorem writeEncoderLeds_initFoot (s : Pkp) : InitFoot s (_writeEncoderLeds s).2 := by
  unfold _writeEncoderLeds
  exact (foldl_encoderLedStep_initFoot _ (false, s)).transInit (transmit_onlyLog _ _ _).initFoot

theorem update_initFoot (s : Pkp) (ut : updateType_e) : InitFoot s (_update s ut).2 := by
  cases ut
  · exact (update_keyLeds_onlyLog s).initFoot
  · rw [update_encoderLeds_eq]
    exact maxCall_rel InitFoot (fun _ _ _ => InitFoot.transInit) _ writeEncoderLeds_initFoot _ s
  · rw [update_all_eq]
    exact (update_keyLeds_onlyLog s).initFoot.transInit
      (maxCall_rel InitFoot (fun _ _ _ => InitFoot.transInit) _ writeEncoderLeds_initFoot _ _)

theorem setBacklight_initFoot (s : Pkp) (c b : Int) : InitFoot s (setBacklight s c b).2 := by
  unfold setBacklight
  split
  · exact InitFoot.reflInit _
  · refine InitFoot.transInit ?_ (transmit_onlyLog _ _ _).initFoot
    rfl

theorem setKeyBrightness_initFoot (s : Pkp) (b : Nat) : InitFoot s (setKeyBrightness s b).2 := by
  unfold setKeyBrightness
  refine InitFoot.transInit ?_ (transmit_onlyLog _ _ _).initFoot
  rfl

theorem initializeEncoder_initFoot (s : Pkp) (i t a : Nat) :
    InitFoot s (initializeEncoder s i t a).2 := by
  unfold initializeEncoder
  simp only []
  split_ifs <;>
    first
    | (refine InitFoot.transInit ?_ ((transmit_onlyLog _ _ _).transLog (transmit_onlyLog _ _ _)).initFoot
       rfl)
    | (refine InitFoot.transInit ?_ (transmit_onlyLog _ _ _).initFoot
       rfl)
    | rfl

theorem initEncoderLoop_initFoot (l : List Nat) (s : Pkp) :
    InitFoot s (initEncoderLoop s l).2 := by
  induction l generalizing s with
  | nil => exact InitFoot.reflInit _
  | cons i l ih =>
    unfold initEncoderLoop
    simp only []
    split
    · exact initializeEncoder_initFoot _ _ _ _
    · exact (initializeEncoder_initFoot _ _ _ _).transInit (ih _)

theorem initializeKeypadTail_initFoot (s : Pkp) : InitFoot s (initializeKeypadTail s).2 := by
  unfold initializeKeypadTail
  simp only []
  have h0 : InitFoot s { s with _initialized := true } := rfl
  split
  · exact h0.transInit (setBacklight_initFoot _ _ _)
  · have h1 := h0.transInit (setBacklight_initFoot _ (toI8 s._backlightColor) (toI8 s._backlightBrightness))
    split
    · exact h1.transInit (setKeyBrightness_initFoot _ _)
    · split
      · refine InitFoot.transInit ?_ (initEncoderLoop_initFoot _ _)
        exact h1.transInit (setKeyBrightness_initFoot _ _)
      · refine InitFoot.transInit ?_ (update_initFoot _ _)
        refine InitFoot.transInit ?_ (initEncoderLoop_initFoot _ _)
        exact h1.transInit (setKeyBrightness_initFoot _ _)

theorem initializeKeypad_initFoot (s : Pkp) : InitFoot s (_initializeKeypad s).2 := by
  unfold _initializeKeypad
  simp only []
  have h0 := (transmit_onlyLog s (startupFrame s) true).initFoot
  split
  · exact h0
  · split
    · split
      · exact h0.transInit (transmit_onlyLog _ _ true).initFoot
      · refine InitFoot.transInit ?_ (initializeKeypadTail_initFoot _)
        exact h0.transInit (transmit_onlyLog _ _ true).initFoot
    · exact h0.transInit (initializeKeypadTail_initFoot _)

theorem watchdog_nothing_watchFoot (s : Pkp) (now : Nat) :
    WatchFoot s (_keypadStatusWatchdog s now MSG_RECEIVED_NOTHING).2 := by
  unfold _keypadStatusWatchdog
  simp only []
  split
  · split
    · have h := (initializeKeypad_initFoot { s with
          _keypadCanStatus := KPS_NO_RX_WITHIN_LAST_SECOND
          _keyState := fun i =>
            if i < PKP_MAX_KEY_AMOUNT then s._defaultKeyState i else s._keyState i }).watchFoot
      unfold WatchFoot at *
      rw [h]
    · rfl
  · rfl

theorem InitFoot.keyState {s t : Pkp} (h : InitFoot s t) : t._keyState = s._keyState := by
  rw [h]

theorem InitFoot.defaultKeyState {s t : Pkp} (h : InitFoot s t) :
    t._defaultKeyState = s._defaultKeyState := by
  rw [h]

theorem InitFoot.status {s t : Pkp} (h : InitFoot s t) :
    t._keypadCanStatus = s._keypadCanStatus := by
  rw [h]

theorem toU8_of_range (v : Int) (h0 : 0 ≤ v) (h1 : v < 256) : (toU8 v : Int) = v := by
  unfold toU8
  rw [Int.toNat_of_nonneg (Int.emod_nonneg _ (by decide))]
  exact Int.emod_eq_of_lt h0 h1

theorem foldl_decodeWiredStep_rxFoot (data : List Nat) (l : List Nat) (s : Pkp) :
    RxFoot s (l.foldl (decodeWiredStep data) s) := by
  induction l generalizing s with
  | nil => rfl
  | cons i l ih =>
    rw [List.foldl_cons]
    have h := ih (decodeWiredStep data s i)
    unfold RxFoot at *
    rw [h]
    rfl

theorem decodeRotaryEncoder_snd (s : Pkp) (data : List Nat) (e : Nat)
    (he : e < PKP_MAX_ROTARY_ENCODER_AMOUNT) :
    (_decodeRotaryEncoder s data e).2 =
      { s with
        _relativeEncoderTicks := Function.update s._relativeEncoderTicks e
          (toI8 (s._relativeEncoderTicks e +
            (if checkBit (data.getD 0 0) 7 then -toI8 (data.getD 0 0 &&& 0x7F : Nat)
             else toI8 (data.getD 0 0 &&& 0x7F : Nat))))
        _encoderPosition := Function.update s._encoderPosition e
          ((data.getD 1 0 ||| (data.getD 2 0 <<< 8)) % 65536) } := by
  unfold PKP_MAX_ROTARY_ENCODER_AMOUNT at he
  have : inLimits (e : Int) 0 ((PKP_MAX_ROTARY_ENCODER_AMOUNT - 1 : Nat) : Int) = true := by
    simp [inLimits, PKP_MAX_ROTARY_ENCODER_AMOUNT]
    omega
  simp [_decodeRotaryEncoder, this]

theorem process_nonkey_rxFoot (s : Pkp) (now : Nat) (f : can_frame)
    (h1 : f.can_id ≠ CAN_RX_BASE_ID_KEYS + s._canId) (h : recognized s._canId f.can_id) :
    RxFoot s (process s now f).2 := by
  unfold process
  rw [if_neg h1]
  split_ifs with a b c d
  · show RxFoot s (_keypadStatusWatchdog (_decodeRotaryEncoder s f.data 0).2 now MSG_RECEIVED_VALID).2
    rw [decodeRotaryEncoder_snd s f.data 0 (by decide)]
    rfl
  · show RxFoot s (_keypadStatusWatchdog (_decodeRotaryEncoder s f.data 1).2 now MSG_RECEIVED_VALID).2
    rw [decodeRotaryEncoder_snd s f.data 1 (by decide)]
    rfl
  · show RxFoot s (_keypadStatusWatchdog (_decodeWiredInputs s f.data).2 now MSG_RECEIVED_VALID).2
    have hw := foldl_decodeWiredStep_rxFoot f.data (List.range PKP_MAX_WIRED_IN_AMOUNT) s
    unfold _decodeWiredInputs
    unfold RxFoot at *
    simp only [_keypadStatusWatchdog]
    rw [hw]
  · rfl
  · exfalso
    rcases h with h | h | h | h | h
    · exact h1 h
    · exact a h
    · exact b h
    · exact c h
    · exact d h

/-! ## Override and watchdog -/

/-- Claim C4. After `setKeyStateOverride(k, v)` with `k < 15` and `v` in 0..3,
`getKeyState(k)` returns `v` at once and still returns `v` after `process` has handled
any finite sequence of recognised inbound frames, in every key mode and for every
transmit callback. -/
theorem override_wins_over_edges (s : Pkp) (k : Nat) (v : Int)
    (hk : k < PKP_MAX_KEY_AMOUNT) (hv0 : 0 ≤ v) (hv3 : v ≤ 3) :
    (getKeyState (setKeyStateOverride s k v).2 k : Int) = v ∧
    ∀ inputs : List (Nat × can_frame),
      (∀ x ∈ inputs, recognized s._canId x.2.can_id) →
      (getKeyState (processAll (setKeyStateOverride s k v).2 inputs) k : Int) = v := by
  have hu : (toU8 v : Int) = v := toU8_of_range v hv0 (by omega)
  have hin : inLimits v (-1) (KEY_MODE_CYCLE4 : Nat) = true := by
    simp [inLimits, KEY_MODE_CYCLE4]
    omega
  have hset : OnlyLog
      { s with
        _overrideKeyState := Function.update s._overrideKeyState k v
        _keyState := Function.update s._keyState k (toU8 v) }
      (setKeyStateOverride s k v).2 := by
    unfold setKeyStateOverride
    rw [if_neg (by omega)]
    simp only [hin, Bool.not_true, Bool.false_eq_true, if_false, if_pos hv0]
    exact update_keyLeds_onlyLog _
  have inv : ∀ (inputs : List (Nat × can_frame)) (t : Pkp),
      t._canId = s._canId → t._overrideKeyState k = v → (t._keyState k : Int) = v →
      (∀ x ∈ inputs, recognized s._canId x.2.can_id) →
      (getKeyState (processAll t inputs) k : Int) = v := by
    intro inputs
    induction inputs with
    | nil =>
      intro t _ _ h3 _
      rw [getKeyState_eq _ _ hk]
      exact h3
    | cons x rest ih =>
      intro t h1 h2 h3 hid
      have hx := hid x (List.mem_cons_self _ _)
      rw [← h1] at hx
      show (getKeyState (processAll (process t x.1 x.2).2 rest) k : Int) = v
      by_cases hkey : x.2.can_id = CAN_RX_BASE_ID_KEYS + t._canId
      · have hv := process_keys_keyView t x.1 x.2 k hk hkey
        rw [decodeKeyStep_self, h2, if_pos hv0] at hv
        simp only [keyView, Prod.mk.injEq] at hv
        refine ih _ ((process_keys_canId t x.1 x.2 hkey).trans h1) hv.2.2.2.2 ?_
          (fun y hy => hid y (List.mem_cons_of_mem _ hy))
        rw [hv.2.2.1]
        exact hu
      · have hr := process_nonkey_rxFoot t x.1 x.2 hkey hx
        refine ih _ ?_ ?_ ?_ (fun y hy => hid y (List.mem_cons_of_mem _ hy))
        · rw [hr]; exact h1
        · rw [hr]; exact h2
        · rw [hr]; exact h3
  have hc : (setKeyStateOverride s k v).2._canId = s._canId := by rw [hset]
  have ho : (setKeyStateOverride s k v).2._overrideKeyState k = v := by
    rw [hset]; simp
  have hs : ((setKeyStateOverride s k v).2._keyState k : Int) = v := by
    rw [hset]; simp [hu]
  refine ⟨?_, fun inputs hid => inv inputs _ hc ho hs hid⟩
  rw [getKeyState_eq _ _ hk]
  exact hs

/-- Claim C5. When the time since the last valid inbound frame is greater than the
watchdog window, `getStatus` returns link-down and afterwards `getKeyState(k)` is the
configured default state of key `k` for every key, whatever the overrides are and
whatever the reconnect attempt does. -/
theorem watchdog_resets_keys_to_default (s : Pkp) (now : Nat)
    (h : subU32 now s._lastCanFrameTimestamp > s._canNodeWatchdogTime) :
    (getStatus s now).1 = KPS_NO_RX_WITHIN_LAST_SECOND ∧
    ∀ k, k < PKP_MAX_KEY_AMOUNT →
      getKeyState (getStatus s now).2 k = s._defaultKeyState k ∧
      (getStatus s now).2._defaultKeyState k = s._defaultKeyState k := by
  have hi := initializeKeypad_initFoot { s with
    _keypadCanStatus := KPS_NO_RX_WITHIN_LAST_SECOND
    _keyState := fun i =>
      if i < PKP_MAX_KEY_AMOUNT then s._defaultKeyState i else s._keyState i }
  unfold getStatus _keypadStatusWatchdog
  simp only [ge_iff_le, h.le, if_true]
  split
  · refine ⟨?_, fun k hk => ⟨?_, ?_⟩⟩
    · show (_initializeKeypad _).2._keypadCanStatus = _
      rw [hi.status]
    · rw [getKeyState_eq _ _ hk]
      show (_initializeKeypad _).2._keyState k = _
      rw [hi.keyState]
      simp [hk]
    · show (_initializeKeypad _).2._defaultKeyState k = _
      rw [hi.defaultKeyState]
  · refine ⟨rfl, fun k hk => ⟨?_, rfl⟩⟩
    rw [getKeyState_eq _ _ hk]
    simp [keyView, hk]

set_option maxRecDepth 100000 in
/-- Claim C4, example: key 3 is overridden to state 3 and then pressed and released. -/
theorem override_wins_over_edges_witness :
    (getKeyState
      (processAll (setKeyStateOverride demoDriver 2 3).2
        [(5, demoKeyFrame 4 0), (6, demoKeyFrame 0 0), (7, demoEncoderFrame 1)]) 2 : Int) = 3 :=
  (override_wins_over_edges demoDriver 2 3 (by decide) (by decide) (by decide)).2
    [(5, demoKeyFrame 4 0), (6, demoKeyFrame 0 0), (7, demoEncoderFrame 1)] (by decide)

set_option maxRecDepth 100000 in
/-- Claim C5, example: key 1 is overridden to state 2; 5000 ms without a frame later
`getStatus` reports link-down and the key is back in its default state 0. -/
theorem watchdog_resets_keys_to_default_witness :
    (getStatus (setKeyStateOverride demoDriver 0 2).2 5000).1 = KPS_NO_RX_WITHIN_LAST_SECOND ∧
    getKeyState (getStatus (setKeyStateOverride demoDriver 0 2).2 5000).2 0 = 0 :=
  ⟨(watchdog_resets_keys_to_default (setKeyStateOverride demoDriver 0 2).2 5000 (by decide)).1,
   ((watchdog_resets_keys_to_default (setKeyStateOverride demoDriver 0 2).2 5000
      (by decide)).2 0 (by decide)).1.trans (by decide)⟩

/-! ## Wired inputs and encoders -/

theorem lor_shiftLeft_eight (a b : Nat) (ha : a < 256) : a ||| (b <<< 8) = a + 256 * b := by
  rw [Nat.lor_comm, Nat.shiftLeft_eq, Nat.mul_comm]
  have h := Nat.mul_add_lt_is_or (i := 8) (b := a) (by simpa using ha) b
  rw [← h]
  norm_num
  omega

theorem foldl_decodeWiredStep_value (data : List Nat) (i : Nat) (l : List Nat) (s : Pkp) :
    (l.foldl (decodeWiredStep data) s)._wiredInputValue i =
      if i ∈ l then
        (min ((data.getD (i * 2) 0 ||| (data.getD (i * 2 + 1) 0 <<< 8)) % 2 ^ 32) 500 * 255 / 500)
          % 256
      else s._wiredInputValue i := by
  induction l generalizing s with
  | nil => simp
  | cons j l ih =>
    rw [List.foldl_cons, ih]
    by_cases h1 : i ∈ l
    · simp [h1]
    · by_cases h2 : i = j
      · subst h2
        simp [h1, decodeWiredStep]
      · simp [h1, h2, decodeWiredStep, Function.update]

theorem process_wired (s : Pkp) (now : Nat) (f : can_frame)
    (h : f.can_id = CAN_RX_BASE_ID_WIRED_IN + s._canId) :
    process s now f =
      (true, (_keypadStatusWatchdog (_decodeWiredInputs s f.data).2 now MSG_RECEIVED_VALID).2) := by
  simp [process, h, CAN_RX_BASE_ID_WIRED_IN, CAN_RX_BASE_ID_KEYS, CAN_RX_BASE_ID_ENCODER_1,
    CAN_RX_BASE_ID_ENCODER_2]

theorem process_wired_value (s : Pkp) (now : Nat) (f : can_frame)
    (hid : f.can_id = CAN_RX_BASE_ID_WIRED_IN + s._canId)
    (hb : ∀ j, f.data.getD j 0 < 256) (i : Nat) (hi : i < PKP_MAX_WIRED_IN_AMOUNT) :
    getWiredInput (process s now f).2 i = min (wiredRaw f.data i) 500 * 255 / 500 := by
  rw [process_wired s now f hid]
  show getWiredInput (_keypadStatusWatchdog (_decodeWiredInputs s f.data).2 now MSG_RECEIVED_VALID).2 i = _
  have h1 : (_keypadStatusWatchdog (_decodeWiredInputs s f.data).2 now
      MSG_RECEIVED_VALID).2._wiredInputValue i
      = ((List.range PKP_MAX_WIRED_IN_AMOUNT).foldl (decodeWiredStep f.data) s)._wiredInputValue i :=
    rfl
  unfold getWiredInput
  rw [if_neg (by unfold PKP_MAX_WIRED_IN_AMOUNT at *; omega), h1, foldl_decodeWiredStep_value,
    if_pos (List.mem_range.2 hi), lor_shiftLeft_eight _ _ (hb _)]
  have ha := hb (i * 2)
  have hc := hb (i * 2 + 1)
  unfold wiredRaw
  rw [Nat.mul_comm 2 i]
  have hlt : f.data.getD (i * 2) 0 + 256 * f.data.getD (i * 2 + 1) 0 < 2 ^ 32 := by
    show _ < 4294967296
    omega
  rw [Nat.mod_eq_of_lt hlt]
  apply Nat.mod_eq_of_lt
  have : min (f.data.getD (i * 2) 0 + 256 * f.data.getD (i * 2 + 1) 0) 500 ≤ 500 :=
    Nat.min_le_right _ _
  omega

/-- Claim C6. For every wired-input payload of bytes and every channel `i < 4`, after
`process` has handled the frame `getWiredInput(i)` is `min(raw, 500) * 255 / 500` rounded
down, where `raw = data[2i] + 256 * data[2i+1]`; so raw 0 gives 0, raw 500 gives 255,
raw 1000 gives 255, and a larger raw reading never gives a smaller value. -/
theorem wired_input_scaling (s : Pkp) (now : Nat) (f : can_frame)
    (hid : f.can_id = CAN_RX_BASE_ID_WIRED_IN + s._canId)
    (hb : ∀ j, f.data.getD j 0 < 256) (i : Nat) (hi : i < PKP_MAX_WIRED_IN_AMOUNT) :
    getWiredInput (process s now f).2 i = min (wiredRaw f.data i) 500 * 255 / 500 ∧
    (wiredRaw f.data i = 0 → getWiredInput (process s now f).2 i = 0) ∧
    (wiredRaw f.data i = 500 → getWiredInput (process s now f).2 i = 255) ∧
    (wiredRaw f.data i = 1000 → getWiredInput (process s now f).2 i = 255) ∧
    (∀ (s' : Pkp) (now' : Nat) (g : can_frame),
      g.can_id = CAN_RX_BASE_ID_WIRED_IN + s'._canId → (∀ j, g.data.getD j 0 < 256) →
      wiredRaw f.data i ≤ wiredRaw g.data i →
      getWiredInput (process s now f).2 i ≤ getWiredInput (process s' now' g).2 i) := by
  have h := process_wired_value s now f hid hb i hi
  refine ⟨h, ?_, ?_, ?_, ?_⟩
  · intro h0; rw [h, h0]; decide
  · intro h0; rw [h, h0]; decide
  · intro h0; rw [h, h0]; decide
  · intro s' now' g hid' hb' hle
    rw [h, process_wired_value s' now' g hid' hb' i hi]
    apply Nat.div_le_div_right
    apply Nat.mul_le_mul_right
    exact min_le_min hle (le_refl _)

set_option maxRecDepth 100000 in
/-- Claim C6, example: a frame whose first channel reads 500 gives 255 on channel 0. -/
theorem wired_input_scaling_witness :
    getWiredInput (process demoDriver 7 demoWiredFrame).2 0 = 255 :=
  (wired_input_scaling demoDriver 7 demoWiredFrame (by decide)
    (by
      intro j
      have h : ∀ x ∈ demoWiredFrame.data, x < 256 := by decide
      rcases Nat.lt_or_ge j demoWiredFrame.data.length with hj | hj
      · rw [List.getD_eq_getElem _ _ hj]
        exact h _ (List.getElem_mem _)
      · rw [List.getD_eq_default _ _ hj]
        decide)
    0 (by decide)).2.2.1 (by decide)

theorem process_encoder1 (s : Pkp) (now : Nat) (f : can_frame)
    (h : f.can_id = CAN_RX_BASE_ID_ENCODER_1 + s._canId) :
    process s now f =
      (true, (_keypadStatusWatchdog (_decodeRotaryEncoder s f.data 0).2 now MSG_RECEIVED_VALID).2) := by
  simp [process, h, CAN_RX_BASE_ID_KEYS, CAN_RX_BASE_ID_ENCODER_1]

theorem process_encoder2 (s : Pkp) (now : Nat) (f : can_frame)
    (h : f.can_id = CAN_RX_BASE_ID_ENCODER_2 + s._canId) :
    process s now f =
      (true, (_keypadStatusWatchdog (_decodeRotaryEncoder s f.data 1).2 now MSG_RECEIVED_VALID).2) := by
  simp [process, h, CAN_RX_BASE_ID_KEYS, CAN_RX_BASE_ID_ENCODER_1, CAN_RX_BASE_ID_ENCODER_2]

theorem process_encoder_position (s : Pkp) (now : Nat) (data : List Nat) (e : Nat)
    (he : e < PKP_MAX_ROTARY_ENCODER_AMOUNT) (hb : ∀ j, data.getD j 0 < 256) (j : Nat) :
    getEncoderPosition
        (_keypadStatusWatchdog (_decodeRotaryEncoder s data e).2 now MSG_RECEIVED_VALID).2 j
      = if j = e then data.getD 1 0 + 256 * data.getD 2 0 else getEncoderPosition s j := by
  have h1 : (_keypadStatusWatchdog (_decodeRotaryEncoder s data e).2 now
      MSG_RECEIVED_VALID).2._encoderPosition
      = (_decodeRotaryEncoder s data e).2._encoderPosition := rfl
  unfold getEncoderPosition
  rw [h1, decodeRotaryEncoder_snd s data e he, lor_shiftLeft_eight _ _ (hb 1)]
  have h2 := hb 1
  have h3 := hb 2
  unfold PKP_MAX_ROTARY_ENCODER_AMOUNT at *
  by_cases hj : j = e
  · subst hj
    simp only [Function.update_same, if_true]
    rw [if_neg (by omega)]
    omega
  · simp only [Function.update_noteq hj, if_neg hj]

/-- Claim C7 (fails on the code). The tick accumulator is an `int8_t`: two encoder-1
frames of 100 clockwise ticks each leave `getRelativeEncoderTicks(0)` at -56, not at the
sum 200; a single frame with the high bit set and magnitude 5 yields -5. -/
theorem relative_ticks_wrap_at_int8 :
    (getRelativeEncoderTicks
      (processAll demoDriver [(1, demoEncoderFrame 100), (2, demoEncoderFrame 100)]) 0).1 = -56 ∧
    (getRelativeEncoderTicks (processAll demoDriver [(1, demoEncoderFrame 0x85)]) 0).1 = -5 := by
  decide

theorem decodeKeyStep_keysFoot (data : List Nat) (s : Pkp) (i : Nat) :
    KeysFoot s (decodeKeyStep data s i) := rfl

theorem KeysFoot.transKeys {s t u : Pkp} (h1 : KeysFoot s t) (h2 : KeysFoot t u) :
    KeysFoot s u := by
  unfold KeysFoot at *
  rw [h2, h1]

theorem foldl_decodeKeyStep_keysFoot (data : List Nat) (l : List Nat) (s : Pkp) :
    KeysFoot s (l.foldl (decodeKeyStep data) s) := by
  induction l generalizing s with
  | nil => rfl
  | cons i l ih =>
    rw [List.foldl_cons]
    exact (decodeKeyStep_keysFoot data s i).transKeys (ih _)

theorem decodeKeyStates_keysFoot (s : Pkp) (data : List Nat) :
    KeysFoot s (_decodeKeyStates s data).2 := by
  unfold _decodeKeyStates
  have h1 := foldl_decodeKeyStep_keysFoot data (List.range PKP_MAX_KEY_AMOUNT) s
  have h2 := update_keyLeds_onlyLog ((List.range PKP_MAX_KEY_AMOUNT).foldl (decodeKeyStep data) s)
  unfold KeysFoot OnlyLog at *
  rw [h2, h1]

theorem foldl_decodeWiredStep_ticks (data : List Nat) (l : List Nat) (s : Pkp) :
    (l.foldl (decodeWiredStep data) s)._relativeEncoderTicks = s._relativeEncoderTicks ∧
    (l.foldl (decodeWiredStep data) s)._canId = s._canId := by
  induction l generalizing s with
  | nil => exact ⟨rfl, rfl⟩
  | cons i l ih =>
    rw [List.foldl_cons]
    exact ⟨(ih _).1.trans rfl, (ih _).2.trans rfl⟩

/-- A frame that is not a frame of encoder `i` leaves the accumulator of encoder `i` and
the node address as they are. -/
theorem process_other_ticks (s : Pkp) (now : Nat) (f : can_frame) (i : Nat)
    (hi : i < PKP_MAX_ROTARY_ENCODER_AMOUNT) (h : f.can_id ≠ encoderFrameId s._canId i) :
    (process s now f).2._relativeEncoderTicks i = s._relativeEncoderTicks i ∧
    (process s now f).2._canId = s._canId := by
  unfold PKP_MAX_ROTARY_ENCODER_AMOUNT at hi
  unfold process
  split_ifs with a b c d e
  · have hk := decodeKeyStates_keysFoot s f.data
    show (_decodeKeyStates s f.data).2._relativeEncoderTicks i = _ ∧
      (_decodeKeyStates s f.data).2._canId = _
    unfold KeysFoot at hk
    exact ⟨by rw [hk], by rw [hk]⟩
  · have h1 : i = 1 := by
      rcases Nat.lt_or_ge i 1 with h0 | h0
      · exfalso
        apply h
        have : i = 0 := by omega
        rw [b, this]
        rfl
      · omega
    show (_decodeRotaryEncoder s f.data 0).2._relativeEncoderTicks i = _ ∧
      (_decodeRotaryEncoder s f.data 0).2._canId = _
    rw [decodeRotaryEncoder_snd s f.data 0 (by decide), h1]
    exact ⟨by simp [Function.update], rfl⟩
  · have h0 : i = 0 := by
      rcases Nat.lt_or_ge i 1 with h0 | h0
      · omega
      · exfalso
        apply h
        have : i = 1 := by omega
        rw [c, this]
        rfl
    show (_decodeRotaryEncoder s f.data 1).2._relativeEncoderTicks i = _ ∧
      (_decodeRotaryEncoder s f.data 1).2._canId = _
    rw [decodeRotaryEncoder_snd s f.data 1 (by decide), h0]
    exact ⟨by simp [Function.update], rfl⟩
  · have hw := foldl_decodeWiredStep_ticks f.data (List.range PKP_MAX_WIRED_IN_AMOUNT) s
    show ((List.range PKP_MAX_WIRED_IN_AMOUNT).foldl (decodeWiredStep f.data) s)._relativeEncoderTicks i = _ ∧
      ((List.range PKP_MAX_WIRED_IN_AMOUNT).foldl (decodeWiredStep f.data) s)._canId = _
    exact ⟨by rw [hw.1], hw.2⟩
  · exact ⟨rfl, rfl⟩
  · have hw := watchdog_nothing_watchFoot s now
    unfold WatchFoot at hw
    exact ⟨by rw [hw], by rw [hw]⟩

/-- Frames none of which is a frame of encoder `i` leave the accumulator of encoder `i`
as it is. -/
theorem processAll_other_ticks (i : Nat) (hi : i < PKP_MAX_ROTARY_ENCODER_AMOUNT)
    (inputs : List (Nat × can_frame)) (s : Pkp)
    (h : ∀ x ∈ inputs, x.2.can_id ≠ encoderFrameId s._canId i) :
    (processAll s inputs)._relativeEncoderTicks i = s._relativeEncoderTicks i := by
  induction inputs generalizing s with
  | nil => rfl
  | cons x l ih =>
    have hx := process_other_ticks s x.1 x.2 i hi (h x (List.mem_cons_self _ _))
    have hl : ∀ y ∈ l, y.2.can_id ≠ encoderFrameId (process s x.1 x.2).2._canId i := by
      intro y hy
      rw [hx.2]
      exact h y (List.mem_cons_of_mem _ hy)
    show (processAll (process s x.1 x.2).2 l)._relativeEncoderTicks i = _
    rw [ih _ hl]
    exact hx.1

/-- Claim C8. For encoder `i` in {0, 1}, `getRelativeEncoderTicks(i)` returns the
accumulated tick value and resets that encoder's accumulator to 0 and nothing else: the
driver afterwards is the driver before with that one accumulator set to 0, the other
encoder's accumulator is unchanged, and a second read returns 0, immediately or after
`process` has handled any frames none of which is a frame of encoder `i`. -/
theorem relative_ticks_read_drains (s : Pkp) (i : Nat) (hi : i < PKP_MAX_ROTARY_ENCODER_AMOUNT) :
    (getRelativeEncoderTicks s i).1 = s._relativeEncoderTicks i ∧
    (getRelativeEncoderTicks s i).2
      = { s with _relativeEncoderTicks := Function.update s._relativeEncoderTicks i 0 } ∧
    (∀ j, j ≠ i →
      (getRelativeEncoderTicks s i).2._relativeEncoderTicks j = s._relativeEncoderTicks j) ∧
    (getRelativeEncoderTicks (getRelativeEncoderTicks s i).2 i).1 = 0 ∧
    (∀ inputs : List (Nat × can_frame),
      (∀ x ∈ inputs, x.2.can_id ≠ encoderFrameId s._canId i) →
      (getRelativeEncoderTicks (processAll (getRelativeEncoderTicks s i).2 inputs) i).1 = 0) := by
  have hn : ¬ i > PKP_MAX_ROTARY_ENCODER_AMOUNT - 1 := by
    unfold PKP_MAX_ROTARY_ENCODER_AMOUNT at *; omega
  have h2 : (getRelativeEncoderTicks s i).2
      = { s with _relativeEncoderTicks := Function.update s._relativeEncoderTicks i 0 } := by
    unfold getRelativeEncoderTicks
    rw [if_neg hn]
  have h1 : ∀ t : Pkp, (getRelativeEncoderTicks t i).1 = t._relativeEncoderTicks i := by
    intro t
    unfold getRelativeEncoderTicks
    rw [if_neg hn]
  refine ⟨h1 s, h2, ?_, ?_, ?_⟩
  · intro j hj
    rw [h2]
    exact Function.update_noteq hj _ _
  · rw [h1, h2]
    exact Function.update_same _ _ _
  · intro inputs hin
    rw [h1, processAll_other_ticks i hi inputs _ (by rw [h2]; exact hin), h2]
    exact Function.update_same _ _ _

set_option maxRecDepth 100000 in
/-- Claim C8, example: after one encoder-1 frame of 5 ticks the first read of encoder 0
returns 5; the second read returns 0, also when a key-status frame and an encoder-2 frame
of 7 ticks were handled in between. -/
theorem relative_ticks_read_drains_witness :
    (getRelativeEncoderTicks (processAll demoDriver [(1, demoEncoderFrame 5)]) 0).1 = 5 ∧
    (getRelativeEncoderTicks
      (getRelativeEncoderTicks (processAll demoDriver [(1, demoEncoderFrame 5)]) 0).2 0).1 = 0 ∧
    (getRelativeEncoderTicks
      (processAll
        (getRelativeEncoderTicks (processAll demoDriver [(1, demoEncoderFrame 5)]) 0).2
        [(2, demoKeyFrame 1 0),
         (3, { can_id := 0x380 + 0x15, can_dlc := 8, data := [7, 0, 0, 0, 0, 0, 0, 0] })]) 0).1
      = 0 :=
  ⟨(relative_ticks_read_drains (processAll demoDriver [(1, demoEncoderFrame 5)]) 0
      (by decide)).1.trans (by decide),
   (relative_ticks_read_drains (processAll demoDriver [(1, demoEncoderFrame 5)]) 0
      (by decide)).2.2.2.1,
   (relative_ticks_read_drains (processAll demoDriver [(1, demoEncoderFrame 5)]) 0
      (by decide)).2.2.2.2 _ (by decide)⟩

/-- Claim C9. After `process` has handled a frame with identifier 0x280 + node address
(resp. 0x380 + node address) with a payload of bytes, `getEncoderPosition(0)` (resp.
`getEncoderPosition(1)`) is `data[1] + 256 * data[2]`, not wrapped or clamped, and the
position of the other encoder is unchanged. -/
theorem encoder_position_stored_directly (s : Pkp) (now : Nat) (f : can_frame)
    (hb : ∀ j, f.data.getD j 0 < 256) :
    (f.can_id = CAN_RX_BASE_ID_ENCODER_1 + s._canId →
      getEncoderPosition (process s now f).2 0 = f.data.getD 1 0 + 256 * f.data.getD 2 0 ∧
      getEncoderPosition (process s now f).2 1 = getEncoderPosition s 1) ∧
    (f.can_id = CAN_RX_BASE_ID_ENCODER_2 + s._canId →
      getEncoderPosition (process s now f).2 1 = f.data.getD 1 0 + 256 * f.data.getD 2 0 ∧
      getEncoderPosition (process s now f).2 0 = getEncoderPosition s 0) := by
  constructor
  · intro h
    rw [process_encoder1 s now f h]
    exact ⟨by rw [process_encoder_position s now f.data 0 (by decide) hb 0]; rfl,
      by rw [process_encoder_position s now f.data 0 (by decide) hb 1]; rfl⟩
  · intro h
    rw [process_encoder2 s now f h]
    exact ⟨by rw [process_encoder_position s now f.data 1 (by decide) hb 1]; rfl,
      by rw [process_encoder_position s now f.data 1 (by decide) hb 0]; rfl⟩

set_option maxRecDepth 100000 in
/-- Claim C9, example: an encoder-1 frame with position bytes 0x34, 0x12 stores 0x1234. -/
theorem encoder_position_stored_directly_witness :
    getEncoderPosition
      (process demoDriver 3
        { can_id := 0x280 + 0x15, can_dlc := 8, data := [1, 0x34, 0x12, 0, 0, 0, 0, 0] }).2 0
      = 0x1234 :=
  ((encoder_position_stored_directly demoDriver 3
    { can_id := 0x280 + 0x15, can_dlc := 8, data := [1, 0x34, 0x12, 0, 0, 0, 0, 0] }
    (by
      intro j
      have h : ∀ x ∈ [1, 0x34, 0x12, 0, 0, 0, 0, 0], x < 256 := by decide
      rcases Nat.lt_or_ge j ([1, 0x34, 0x12, 0, 0, 0, 0, 0] : List Nat).length with hj | hj
      · rw [List.getD_eq_getElem _ _ hj]
        exact h _ (List.getElem_mem _)
      · rw [List.getD_eq_default _ _ hj]
        decide)).1 (by decide)).1

theorem OnlyLog.encoderTopValue {s t : Pkp} (h : OnlyLog s t) :
    t._encoderTopValue = s._encoderTopValue := by
  rw [h]

theorem OnlyLog.encoderInitValue {s t : Pkp} (h : OnlyLog s t) :
    t._encoderInitValue = s._encoderInitValue := by
  rw [h]

theorem initializeEncoder_stores (s : Pkp) (i t a : Nat) :
    (initializeEncoder s i t a).2._encoderTopValue
      = Function.update s._encoderTopValue (constrain i 0 (PKP_MAX_ROTARY_ENCODER_AMOUNT - 1))
          ((if constrain t 0 0x10 = 0 then 0xFFFF else constrain t 0 0x10) % 256) ∧
    (initializeEncoder s i t a).2._encoderInitValue
      = Function.update s._encoderInitValue (constrain i 0 (PKP_MAX_ROTARY_ENCODER_AMOUNT - 1))
          (min a (if constrain t 0 0x10 = 0 then 0xFFFF else constrain t 0 0x10)) := by
  unfold initializeEncoder
  simp only []
  split_ifs <;>
    first
    | exact ⟨rfl, rfl⟩
    | (constructor
       · rw [((transmit_onlyLog _ _ _).transLog (transmit_onlyLog _ _ _)).encoderTopValue]
       · rw [((transmit_onlyLog _ _ _).transLog (transmit_onlyLog _ _ _)).encoderInitValue])
    | (constructor
       · rw [(transmit_onlyLog _ _ _).encoderTopValue]
       · rw [(transmit_onlyLog _ _ _).encoderInitValue])

/-- Claim C10 (fails on the code). After `initializeEncoder(index, 0, x)` the top value
stored for the encoder is 255, the `uint8_t` truncation of 0xFFFF, not 65535; the stored
initial value is `min(x, 65535)`. -/
theorem initializeEncoder_zero_top_stores_255 (s : Pkp) (index x : Nat) :
    (initializeEncoder s index 0 x).2._encoderTopValue
        (constrain index 0 (PKP_MAX_ROTARY_ENCODER_AMOUNT - 1)) = 255 ∧
    (initializeEncoder s index 0 x).2._encoderInitValue
        (constrain index 0 (PKP_MAX_ROTARY_ENCODER_AMOUNT - 1)) = min x 65535 := by
  have h := initializeEncoder_stores s index 0 x
  rw [h.1, h.2]
  simp [constrain]

/-! ## Configuration pushes -/

theorem CfgFoot.reflCfg (s : Pkp) : CfgFoot s s := rfl

theorem CfgFoot.transCfg {s t u : Pkp} (h1 : CfgFoot s t) (h2 : CfgFoot t u) : CfgFoot s u := by
  unfold CfgFoot at *
  rw [h2, h1]

theorem OnlyLog.cfgFoot {s t : Pkp} (h : OnlyLog s t) : CfgFoot s t := by
  unfold CfgFoot OnlyLog at *
  rw [h]

theorem CfgFoot.initializedCfg {s t : Pkp} (h : CfgFoot s t) : t._initialized = s._initialized := by
  rw [h]

theorem OnlyLog.initializedLog {s t : Pkp} (h : OnlyLog s t) : t._initialized = s._initialized := by
  rw [h]

theorem foldl_encoderLedStep_cfgFoot (l : List Nat) (acc : Bool × Pkp) :
    CfgFoot acc.2 (l.foldl encoderLedStep acc).2 := by
  induction l generalizing acc with
  | nil => exact CfgFoot.reflCfg _
  | cons i l ih =>
    rw [List.foldl_cons]
    refine CfgFoot.transCfg ?_ (ih _)
    unfold encoderLedStep
    split
    · rfl
    · rfl

theorem foldl_encoderLedStep_txLog (l : List Nat) (acc : Bool × Pkp) :
    (l.foldl encoderLedStep acc).2.txLog = acc.2.txLog ∧
    (l.foldl encoderLedStep acc).2._initialized = acc.2._initialized := by
  induction l generalizing acc with
  | nil => exact ⟨rfl, rfl⟩
  | cons i l ih =>
    rw [List.foldl_cons, (ih _).1, (ih _).2]
    unfold encoderLedStep
    split
    · exact ⟨rfl, rfl⟩
    · exact ⟨rfl, rfl⟩

theorem writeEncoderLeds_cfgFoot (s : Pkp) : CfgFoot s (_writeEncoderLeds s).2 := by
  unfold _writeEncoderLeds
  exact (foldl_encoderLedStep_cfgFoot _ (false, s)).transCfg (transmit_onlyLog _ _ _).cfgFoot

theorem update_cfgFoot (s : Pkp) (ut : updateType_e) : CfgFoot s (_update s ut).2 := by
  cases ut
  · exact (update_keyLeds_onlyLog s).cfgFoot
  · rw [update_encoderLeds_eq]
    exact maxCall_rel CfgFoot (fun _ _ _ => CfgFoot.transCfg) _ writeEncoderLeds_cfgFoot _ s
  · rw [update_all_eq]
    exact (update_keyLeds_onlyLog s).cfgFoot.transCfg
      (maxCall_rel CfgFoot (fun _ _ _ => CfgFoot.transCfg) _ writeEncoderLeds_cfgFoot _ _)

theorem setBacklight_cfgFoot (s : Pkp) (c b : Int) : CfgFoot s (setBacklight s c b).2 := by
  unfold setBacklight
  split
  · exact CfgFoot.reflCfg _
  · refine CfgFoot.transCfg ?_ (transmit_onlyLog _ _ _).cfgFoot
    rfl

theorem setKeyBrightness_cfgFoot (s : Pkp) (b : Nat) : CfgFoot s (setKeyBrightness s b).2 := by
  unfold setKeyBrightness
  refine CfgFoot.transCfg ?_ (transmit_onlyLog _ _ _).cfgFoot
  rfl

theorem initializeEncoder_cfgFoot (s : Pkp) (i t a : Nat) :
    CfgFoot s (initializeEncoder s i t a).2 := by
  unfold initializeEncoder
  simp only []
  split_ifs <;>
    first
    | (refine CfgFoot.transCfg ?_ ((transmit_onlyLog _ _ _).transLog (transmit_onlyLog _ _ _)).cfgFoot
       rfl)
    | (refine CfgFoot.transCfg ?_ (transmit_onlyLog _ _ _).cfgFoot
       rfl)
    | rfl

theorem initEncoderLoop_cfgFoot (l : List Nat) (s : Pkp) :
    CfgFoot s (initEncoderLoop s l).2 := by
  induction l generalizing s with
  | nil => exact CfgFoot.reflCfg _
  | cons i l ih =>
    unfold initEncoderLoop
    simp only []
    split
    · exact initializeEncoder_cfgFoot _ _ _ _
    · exact (initializeEncoder_cfgFoot _ _ _ _).transCfg (ih _)

theorem initializeKeypadTail_cfgFoot (s : Pkp) :
    CfgFoot { s with _initialized := true } (initializeKeypadTail s).2 := by
  unfold initializeKeypadTail
  simp only []
  split
  · exact setBacklight_cfgFoot _ _ _
  · have h1 := setBacklight_cfgFoot { s with _initialized := true }
      (toI8 s._backlightColor) (toI8 s._backlightBrightness)
    split
    · exact h1.transCfg (setKeyBrightness_cfgFoot _ _)
    · split
      · refine CfgFoot.transCfg ?_ (initEncoderLoop_cfgFoot _ _)
        exact h1.transCfg (setKeyBrightness_cfgFoot _ _)
      · refine CfgFoot.transCfg ?_ (update_cfgFoot _ _)
        refine CfgFoot.transCfg ?_ (initEncoderLoop_cfgFoot _ _)
        exact h1.transCfg (setKeyBrightness_cfgFoot _ _)

theorem initializeKeypadTail_initialized (s : Pkp) :
    (initializeKeypadTail s).2._initialized = true := by
  rw [(initializeKeypadTail_cfgFoot s).initializedCfg]

theorem transmit_not_initialized (s : Pkp) (m : can_frame) (h : s._initialized = false) :
    _transmit s m false = (RS_KEYPAD_NOT_INITIALIZED, s) := by
  simp [_transmit, h]

theorem update_keyLeds_not_initialized (s : Pkp) (h : s._initialized = false) :
    _update s UT_KEY_LEDS = (RS_KEYPAD_NOT_INITIALIZED, s) := by
  have hk : ∀ mode, (fun t : Pkp => _writeKeyLeds t mode) s = (RS_KEYPAD_NOT_INITIALIZED, s) :=
    fun mode => transmit_not_initialized s _ h
  rw [update_keyLeds_eq,
    maxCall_of_fixed RS_SUCCESS RS_KEYPAD_NOT_INITIALIZED _ s (hk CM_SOLID) (by decide)]
  exact maxCall_of_fixed RS_KEYPAD_NOT_INITIALIZED RS_KEYPAD_NOT_INITIALIZED _ s (hk CM_BLINK)
    (by decide)

theorem writeEncoderLeds_not_initialized (s : Pkp) (h : s._initialized = false) :
    (_writeEncoderLeds s).1 = RS_KEYPAD_NOT_INITIALIZED ∧ (_writeEncoderLeds s).2.txLog = s.txLog := by
  unfold _writeEncoderLeds
  have hf := foldl_encoderLedStep_txLog (List.range PKP_MAX_ROTARY_ENCODER_AMOUNT) (false, s)
  simp only []
  rw [transmit_not_initialized _ _ (hf.2.trans h)]
  exact ⟨rfl, hf.1⟩

/-- Claim C11 (fails on the code). A reachable driver breaks "initial value ≤ top value":
after construction and `initializeEncoder(0, 0, 700)` the stored top value of encoder 0 is
255 (the truncated 0xFFFF) and the stored initial value is 700. -/
theorem encoder_init_value_exceeds_top :
    (initializeEncoder (ctor 0x15 none 500 false) 0 0 700).2._encoderTopValue 0 = 255 ∧
    (initializeEncoder (ctor 0x15 none 500 false) 0 0 700).2._encoderInitValue 0 = 700 ∧
    ¬ ((initializeEncoder (ctor 0x15 none 500 false) 0 0 700).2._encoderInitValue 0
        ≤ (initializeEncoder (ctor 0x15 none 500 false) 0 0 700).2._encoderTopValue 0) := by
  decide

set_option maxRecDepth 100000 in
/-- Claim C12 (fails on the code). On a driver that is not yet initialized
`initializeEncoder(0, 0, 700)` transmits nothing and stores top value 255 and initial
value 700; the following `begin` over a transmit callback that always succeeds replays
them through `initializeEncoder(0, 255, 700)`, which stores top value 16 and initial value
16 and sends these two values in the configuration frames of encoder 0. -/
theorem replay_changes_zero_top_value :
    (initializeEncoder demoDriver 0 0 700).1 = RS_KEYPAD_NOT_INITIALIZED ∧
    (initializeEncoder demoDriver 0 0 700).2.txLog = [] ∧
    (initializeEncoder demoDriver 0 0 700).2._encoderTopValue 0 = 255 ∧
    (initializeEncoder demoDriver 0 0 700).2._encoderInitValue 0 = 700 ∧
    (begin (initializeEncoder demoDriver 0 0 700).2).1 = RS_SUCCESS ∧
    (begin (initializeEncoder demoDriver 0 0 700).2).2._encoderTopValue 0 = 16 ∧
    (begin (initializeEncoder demoDriver 0 0 700).2).2._encoderInitValue 0 = 16 ∧
    ((begin (initializeEncoder demoDriver 0 0 700).2).2.txLog.drop 4).take 2 =
      [{ can_id := 0x615, can_dlc := 5, data := [0x2F, 0x00, 0x20, 0x06, 16, 0, 0, 0] },
       { can_id := 0x615, can_dlc := 6, data := [0x2B, 0x00, 0x20, 0x03, 16, 0, 0, 0] }] := by
  decide

/-! ## Rejections -/

theorem foldl_setEncoderLedStep_txLog (leds : Nat → Int) (l : List Nat) (acc : Bool × Pkp) :
    (l.foldl (setEncoderLedStep leds) acc).2.txLog = acc.2.txLog ∧
    (l.foldl (setEncoderLedStep leds) acc).2._initialized = acc.2._initialized := by
  induction l generalizing acc with
  | nil => exact ⟨rfl, rfl⟩
  | cons i l ih =>
    rw [List.foldl_cons, (ih _).1, (ih _).2]
    unfold setEncoderLedStep
    split
    · exact ⟨rfl, rfl⟩
    · exact ⟨rfl, rfl⟩

theorem foldl_setEncoderLedStep_changed (leds : Nat → Int) (s : Pkp)
    (h : ∃ i, i < PKP_MAX_ROTARY_ENCODER_AMOUNT ∧ leds i ≥ 0 ∧
      s._currentEncoderLed i ≠ toU16 (leds i)) :
    ((List.range PKP_MAX_ROTARY_ENCODER_AMOUNT).foldl (setEncoderLedStep leds) (false, s)).1
      = true := by
  have hr : List.range PKP_MAX_ROTARY_ENCODER_AMOUNT = [0, 1] := by decide
  rw [hr]
  obtain ⟨i, hi, h1, h2⟩ := h
  unfold PKP_MAX_ROTARY_ENCODER_AMOUNT at hi
  simp only [List.foldl_cons, List.foldl_nil]
  by_cases c0 : leds 0 ≥ 0 ∧ s._currentEncoderLed 0 ≠ toU16 (leds 0)
  · have e0 : setEncoderLedStep leds (false, s) 0
        = (true, { s with
            _currentEncoderLed := Function.update s._currentEncoderLed 0 (toU16 (leds 0)) }) := by
      simp only [setEncoderLedStep, if_pos c0]
    rw [e0]
    unfold setEncoderLedStep
    split <;> rfl
  · have e0 : setEncoderLedStep leds (false, s) 0 = (false, s) := by
      simp only [setEncoderLedStep, if_neg c0]
    rw [e0]
    have hi1 : i = 1 := by
      rcases Nat.lt_succ_iff_lt_or_eq.1 hi with h | h
      · have : i = 0 := by omega
        subst this
        exact absurd ⟨h1, h2⟩ c0
      · exact h
    subst hi1
    simp only [setEncoderLedStep, if_pos (And.intro h1 h2)]

/-- Claim C13. While the initialized flag is false, each transmitting mutator called
with valid arguments returns `RS_KEYPAD_NOT_INITIALIZED` and hands no frame to the
transmit callback (the log is unchanged), whether or not a callback is present. -/
theorem mutators_rejected_before_begin (s : Pkp) (h : s._initialized = false) :
    ((applyDefaultKeyStates s).1 = RS_KEYPAD_NOT_INITIALIZED ∧
      (applyDefaultKeyStates s).2.txLog = s.txLog) ∧
    (∀ color brightness : Int, inLimits color BACKLIGHT_DEFAULT BACKLIGHT_YELLOWGREEN = true →
      (setBacklight s color brightness).1 = RS_KEYPAD_NOT_INITIALIZED ∧
      (setBacklight s color brightness).2.txLog = s.txLog) ∧
    (∀ brightness : Nat,
      (setKeyBrightness s brightness).1 = RS_KEYPAD_NOT_INITIALIZED ∧
      (setKeyBrightness s brightness).2.txLog = s.txLog) ∧
    (∀ (k : Nat) (colors blinkColors : Nat → Nat), k < PKP_MAX_KEY_AMOUNT →
      (setKeyColor s k colors blinkColors).1 = RS_KEYPAD_NOT_INITIALIZED ∧
      (setKeyColor s k colors blinkColors).2.txLog = s.txLog) ∧
    (∀ (k : Nat) (v : Int), k < PKP_MAX_KEY_AMOUNT → -1 ≤ v → v ≤ 3 →
      (setKeyStateOverride s k v).1 = RS_KEYPAD_NOT_INITIALIZED ∧
      (setKeyStateOverride s k v).2.txLog = s.txLog) ∧
    (∀ index topValue actValue : Nat,
      (initializeEncoder s index topValue actValue).1 = RS_KEYPAD_NOT_INITIALIZED ∧
      (initializeEncoder s index topValue actValue).2.txLog = s.txLog) ∧
    (∀ leds : Nat → Int,
      (∃ i, i < PKP_MAX_ROTARY_ENCODER_AMOUNT ∧ leds i ≥ 0 ∧
        s._currentEncoderLed i ≠ toU16 (leds i)) →
      (setEncoderLeds s leds).1 = RS_KEYPAD_NOT_INITIALIZED ∧
      (setEncoderLeds s leds).2.txLog = s.txLog) := by
  refine ⟨?_, ?_, ?_, ?_, ?_, ?_, ?_⟩
  · unfold applyDefaultKeyStates
    rw [update_keyLeds_not_initialized]
    · exact ⟨rfl, rfl⟩
    · exact h
  · intro c b hc
    unfold setBacklight
    simp only [hc, Bool.not_true, Bool.false_eq_true, if_false]
    rw [transmit_not_initialized]
    · exact ⟨rfl, rfl⟩
    · exact h
  · intro b
    unfold setKeyBrightness
    simp only []
    rw [transmit_not_initialized]
    · exact ⟨rfl, rfl⟩
    · exact h
  · intro k colors blinkColors hk
    have hin : inLimits (k : Int) 0 ((PKP_MAX_KEY_AMOUNT - 1 : Nat) : Int) = true := by
      unfold PKP_MAX_KEY_AMOUNT at *
      simp [inLimits]
      omega
    have hf : ∀ (l : List Nat) (acc : Bool × Pkp),
        (l.foldl (setKeyColorStep k colors blinkColors) acc).1 = acc.1 ∧
        (l.foldl (setKeyColorStep k colors blinkColors) acc).2.txLog = acc.2.txLog ∧
        (l.foldl (setKeyColorStep k colors blinkColors) acc).2._initialized
          = acc.2._initialized := by
      intro l
      induction l with
      | nil => intro acc; exact ⟨rfl, rfl, rfl⟩
      | cons i l ih =>
        intro acc
        rw [List.foldl_cons, (ih _).1, (ih _).2.1, (ih _).2.2]
        simp only [setKeyColorStep, hin, Bool.not_true, Bool.false_eq_true, if_false]
        exact ⟨trivial, trivial, trivial⟩
    unfold setKeyColor
    simp only [hin, Bool.not_true, Bool.false_eq_true, if_false]
    rw [(hf _ _).1]
    simp only [Bool.false_eq_true, if_false]
    rw [maxCall_of_fixed RS_SUCCESS RS_KEYPAD_NOT_INITIALIZED _ _
        (update_keyLeds_not_initialized _ (((hf _ _).2.2).trans h)) (by decide)]
    exact ⟨rfl, (hf _ _).2.1⟩
  · intro k v hk h1 h3
    have hin : inLimits v (-1) (KEY_MODE_CYCLE4 : Nat) = true := by
      simp [inLimits, KEY_MODE_CYCLE4]
      omega
    unfold setKeyStateOverride
    rw [if_neg (by omega)]
    simp only [hin, Bool.not_true, Bool.false_eq_true, if_false]
    rw [update_keyLeds_not_initialized]
    · exact ⟨rfl, rfl⟩
    · exact h
  · intro i t a
    unfold initializeEncoder
    simp [h]
  · intro leds hch
    have hf := foldl_setEncoderLedStep_txLog leds (List.range PKP_MAX_ROTARY_ENCODER_AMOUNT)
      (false, s)
    have hw := writeEncoderLeds_not_initialized _ (hf.2.trans h)
    unfold setEncoderLeds
    simp only [foldl_setEncoderLedStep_changed leds s hch, if_true]
    have hw2 := writeEncoderLeds_not_initialized _
      (((writeEncoderLeds_cfgFoot _).initializedCfg).trans (hf.2.trans h))
    rw [update_encoderLeds_eq]
    unfold maxCall
    simp only [hw.1]
    split_ifs with a b
    · exact absurd b (by decide)
    · exact ⟨hw2.1, (hw2.2.trans hw.2).trans hf.1⟩
    · exact ⟨rfl, hw.2.trans hf.1⟩

/-- Claim C13, example: on the freshly constructed driver `setKeyBrightness(80)` is
rejected. -/
theorem mutators_rejected_before_begin_witness :
    (setKeyBrightness demoDriver 80).1 = RS_KEYPAD_NOT_INITIALIZED ∧
    (setKeyBrightness demoDriver 80).2.txLog = demoDriver.txLog :=
  (mutators_rejected_before_begin demoDriver (by decide)).2.2.1 80

/-! ## The initialized flag -/

set_option maxRecDepth 100000 in
/-- Claim C14, counterexample: when the backlight frame (the third frame of the init
sequence) fails, `begin` returns `RS_CAN_TX_ERROR` and the initialized flag is true. -/
theorem begin_failure_leaves_flag_true :
    failThirdDriver._initialized = false ∧
    (begin failThirdDriver).1 = RS_CAN_TX_ERROR ∧
    (begin failThirdDriver).1 ≠ RS_SUCCESS ∧
    (begin failThirdDriver).2._initialized = true := by
  decide

/-- Claim C14, amended. For a driver that is not yet initialized and any transmit
callback (or none): if `begin` returns `RS_SUCCESS` the initialized flag is true
afterwards, and the flag is true afterwards exactly when the startup announce and, when
heartbeat production is configured, the heartbeat configuration frame were both
transmitted successfully. -/
theorem begin_sets_flag_after_handshake (s : Pkp) (h : s._initialized = false) :
    ((begin s).1 = RS_SUCCESS → (begin s).2._initialized = true) ∧
    ((begin s).2._initialized = true ↔ handshakeOk s) := by
  have h0 := (transmit_onlyLog s (startupFrame s) true).initializedLog
  have h1 := (transmit_onlyLog (_transmit s (startupFrame s) true).2
    (heartbeatFrame (_transmit s (startupFrame s) true).2) true).initializedLog
  have hhb : (_transmit s (startupFrame s) true).2._canNodeHeartbeatInterval
      = s._canNodeHeartbeatInterval := by
    rw [transmit_onlyLog s (startupFrame s) true]
  unfold begin _initializeKeypad handshakeOk
  simp only []
  split
  · rename_i hf
    refine ⟨fun e => absurd e hf, ?_⟩
    rw [h0, h]
    exact ⟨fun e => Bool.noConfusion e, fun e => absurd e.1 hf⟩
  · rename_i hf
    have hs : (_transmit s (startupFrame s) true).1 = RS_SUCCESS := not_not.1 hf
    rw [hhb]
    split
    · rename_i hpos
      split
      · rename_i hf2
        refine ⟨fun e => absurd e hf2, ?_⟩
        rw [h1, h0, h]
        exact ⟨fun e => Bool.noConfusion e, fun e => absurd (e.2 hpos) hf2⟩
      · rename_i hf2
        refine ⟨fun _ => initializeKeypadTail_initialized _, ?_⟩
        rw [initializeKeypadTail_initialized]
        exact ⟨fun _ => ⟨hs, fun _ => not_not.1 hf2⟩, fun _ => rfl⟩
    · rename_i hpos
      refine ⟨fun _ => initializeKeypadTail_initialized _, ?_⟩
      rw [initializeKeypadTail_initialized]
      exact ⟨fun _ => ⟨hs, fun e => absurd e hpos⟩, fun _ => rfl⟩

set_option maxRecDepth 100000 in
/-- Claim C14, example: `begin` on the driver with an always succeeding callback returns
`RS_SUCCESS` and sets the flag. -/
theorem begin_sets_flag_after_handshake_witness :
    (begin demoDriver).1 = RS_SUCCESS ∧ (begin demoDriver).2._initialized = true :=
  ⟨by decide, (begin_sets_flag_after_handshake demoDriver (by decide)).1 (by decide)⟩

/-! ## Out-of-range indices -/

/-- Claim C16. Read-only accessors with an out-of-range index return the neutral value:
`getKeyPress(k) = false` and `getKeyState(k) = 0` for `k ≥ 15`, `getWiredInput(j) = 0` for
`j ≥ 4`, `getEncoderPosition(e) = 0` and `getRelativeEncoderTicks(e) = 0` for `e ≥ 2`; the
only accessor among them that can write the driver, `getRelativeEncoderTicks`, leaves it
unchanged (the others are functions of the driver alone). -/
theorem accessors_degrade_silently (s : Pkp) :
    (∀ k, k ≥ PKP_MAX_KEY_AMOUNT → getKeyPress s k = false ∧ getKeyState s k = 0) ∧
    (∀ j, j ≥ PKP_MAX_WIRED_IN_AMOUNT → getWiredInput s j = 0) ∧
    (∀ e, e ≥ PKP_MAX_ROTARY_ENCODER_AMOUNT →
      getEncoderPosition s e = 0 ∧ getRelativeEncoderTicks s e = (0, s)) := by
  refine ⟨fun k hk => ?_, fun j hj => ?_, fun e he => ?_⟩
  · unfold PKP_MAX_KEY_AMOUNT at hk
    have : k > PKP_MAX_KEY_AMOUNT - 1 := by unfold PKP_MAX_KEY_AMOUNT; omega
    simp [getKeyPress, getKeyState, this]
  · unfold PKP_MAX_WIRED_IN_AMOUNT at hj
    have : j > PKP_MAX_WIRED_IN_AMOUNT - 1 := by unfold PKP_MAX_WIRED_IN_AMOUNT; omega
    simp [getWiredInput, this]
  · unfold PKP_MAX_ROTARY_ENCODER_AMOUNT at he
    have : e > PKP_MAX_ROTARY_ENCODER_AMOUNT - 1 := by
      unfold PKP_MAX_ROTARY_ENCODER_AMOUNT; omega
    simp [getEncoderPosition, getRelativeEncoderTicks, this]

/-- Claim C16, example: key index 15 on the example driver. -/
theorem accessors_degrade_silently_witness :
    getKeyPress demoDriver 15 = false ∧ getKeyState demoDriver 15 = 0 :=
  (accessors_degrade_silently demoDriver).1 15 (by decide)

/-- Claim C17. For every key index `k ≥ 15`, `setKeyColor`, `setKeyMode` and
`setKeyStateOverride` return `RS_INVALID_KEY_INDEX` and leave the driver, its log of
transmitted frames included, unchanged, whether or not the driver is initialized. -/
theorem mutators_reject_bad_key_index (s : Pkp) (k : Nat) (hk : k ≥ PKP_MAX_KEY_AMOUNT) :
    (∀ colors blinkColors : Nat → Nat,
      setKeyColor s k colors blinkColors = (RS_INVALID_KEY_INDEX, s)) ∧
    (∀ keyMode : Nat, setKeyMode s k keyMode = (RS_INVALID_KEY_INDEX, s)) ∧
    (∀ v : Int, setKeyStateOverride s k v = (RS_INVALID_KEY_INDEX, s)) := by
  have hin : inLimits (k : Int) 0 ((PKP_MAX_KEY_AMOUNT - 1 : Nat) : Int) = false := by
    unfold PKP_MAX_KEY_AMOUNT at *
    simp [inLimits]
    omega
  refine ⟨fun c b => ?_, fun m => ?_, fun v => ?_⟩
  · simp [setKeyColor, hin]
  · simp [setKeyMode, hin]
  · simp [setKeyStateOverride, hk]

/-- Claim C17, example: key index 15 on the initialized example driver. -/
theorem mutators_reject_bad_key_index_witness :
    setKeyMode (begin demoDriver).2 15 KEY_MODE_TOGGLE
      = (RS_INVALID_KEY_INDEX, (begin demoDriver).2) :=
  (mutators_reject_bad_key_index (begin demoDriver).2 15 (by decide)).2.1 KEY_MODE_TOGGLE

/-! ## Batch validation -/

theorem presetStep_defFoot (d : Nat → Int) (acc : Bool × Pkp) (j : Nat) :
    DefFoot acc.2 (presetStep d acc j).2 := by
  unfold presetStep
  split_ifs <;> rfl

theorem DefFoot.transDef {s t u : Pkp} (h1 : DefFoot s t) (h2 : DefFoot t u) : DefFoot s u := by
  unfold DefFoot at *
  rw [h2, h1]

theorem inLimits_iff (v lo hi : Int) : inLimits v lo hi = true ↔ lo ≤ v ∧ v ≤ hi := by
  simp [inLimits]

theorem presetStep_default (d : Nat → Int) (acc : Bool × Pkp) (j i : Nat) :
    (presetStep d acc j).2._defaultKeyState i
      = if i = j ∧ 0 ≤ d i ∧ d i ≤ 3 then toU8 (d i) else acc.2._defaultKeyState i := by
  unfold presetStep
  by_cases c1 : inLimits (d j) (-1) 3 = true
  · have c1' := (inLimits_iff _ _ _).1 c1
    simp only [c1, Bool.not_true, Bool.false_eq_true, if_false]
    by_cases c2 : d j = -1
    · simp only [c2, if_true]
      by_cases e : i = j
      · subst e; simp [c2]
      · simp [e]
    · simp only [c2, if_false]
      by_cases e : i = j
      · subst e
        have : 0 ≤ d i := by omega
        simp [this, c1'.2]
      · simp [e, Function.update]
  · have c1' : ¬ (-1 ≤ d j ∧ d j ≤ 3) := fun c => c1 ((inLimits_iff _ _ _).2 c)
    simp only [Bool.not_eq_true] at c1
    simp only [c1, Bool.not_false, if_true]
    by_cases e : i = j
    · subst e
      have : ¬ (0 ≤ d i ∧ d i ≤ 3) := fun c => c1' ⟨by omega, c.2⟩
      simp [this]
    · simp [e]

theorem presetStep_fst (d : Nat → Int) (acc : Bool × Pkp) (j : Nat) :
    (presetStep d acc j).1 = true ↔ acc.1 = true ∨ ¬ (-1 ≤ d j ∧ d j ≤ 3) := by
  unfold presetStep
  by_cases c1 : inLimits (d j) (-1) 3 = true
  · have c1' := (inLimits_iff _ _ _).1 c1
    simp only [c1, Bool.not_true, Bool.false_eq_true, if_false]
    split_ifs <;> simp [c1']
  · have c1' : ¬ (-1 ≤ d j ∧ d j ≤ 3) := fun c => c1 ((inLimits_iff _ _ _).2 c)
    simp only [Bool.not_eq_true] at c1
    simp only [c1, Bool.not_false, if_true]
    simp [c1']

theorem foldl_presetStep (d : Nat → Int) (l : List Nat) (acc : Bool × Pkp) :
    DefFoot acc.2 (l.foldl (presetStep d) acc).2 ∧
    (∀ i, (l.foldl (presetStep d) acc).2._defaultKeyState i
      = if i ∈ l ∧ 0 ≤ d i ∧ d i ≤ 3 then toU8 (d i) else acc.2._defaultKeyState i) ∧
    ((l.foldl (presetStep d) acc).1 = true ↔
      acc.1 = true ∨ ∃ j, j ∈ l ∧ ¬ (-1 ≤ d j ∧ d j ≤ 3)) := by
  induction l generalizing acc with
  | nil => exact ⟨rfl, fun i => by simp, by simp⟩
  | cons j l ih =>
    rw [List.foldl_cons]
    obtain ⟨h1, h2, h3⟩ := ih (presetStep d acc j)
    refine ⟨(presetStep_defFoot d acc j).transDef h1, fun i => ?_, ?_⟩
    · rw [h2 i, presetStep_default d acc j i]
      rcases eq_or_ne i j with b | b
      · subst b
        by_cases c : 0 ≤ d i ∧ d i ≤ 3 <;> by_cases a : i ∈ l <;> simp [a, c]
      · by_cases a : i ∈ l <;> simp [a, b]
    · rw [h3, presetStep_fst]
      simp only [List.mem_cons]
      constructor
      · rintro ((h | h) | ⟨x, hx, hx'⟩)
        · exact Or.inl h
        · exact Or.inr ⟨j, Or.inl rfl, h⟩
        · exact Or.inr ⟨x, Or.inr hx, hx'⟩
      · rintro (h | ⟨x, hx | hx, hx'⟩)
        · exact Or.inl (Or.inl h)
        · subst hx; exact Or.inl (Or.inr hx')
        · exact Or.inr ⟨x, hx, hx'⟩

/-- Claim C18. `presetDefaultKeyStates(s)` leaves, for each key `i`, the default state
equal to `s[i]` when `0 ≤ s[i] ≤ 3` and unchanged otherwise; it returns
`RS_INVALID_KEY_STATE` exactly when some `s[i]` lies outside -1..3 and `RS_SUCCESS`
otherwise; it writes nothing but the default states and transmits nothing. -/
theorem preset_applies_valid_entries (s : Pkp) (d : Nat → Int) :
    (presetDefaultKeyStates s d).2
      = { s with _defaultKeyState := (presetDefaultKeyStates s d).2._defaultKeyState } ∧
    (presetDefaultKeyStates s d).2.txLog = s.txLog ∧
    (∀ i, i < PKP_MAX_KEY_AMOUNT →
      ((0 ≤ d i ∧ d i ≤ 3) →
        ((presetDefaultKeyStates s d).2._defaultKeyState i : Int) = d i) ∧
      (¬ (0 ≤ d i ∧ d i ≤ 3) →
        (presetDefaultKeyStates s d).2._defaultKeyState i = s._defaultKeyState i)) ∧
    ((presetDefaultKeyStates s d).1 = RS_INVALID_KEY_STATE ↔
      ∃ i, i < PKP_MAX_KEY_AMOUNT ∧ ¬ (-1 ≤ d i ∧ d i ≤ 3)) ∧
    ((presetDefaultKeyStates s d).1 = RS_SUCCESS ↔
      ¬ ∃ i, i < PKP_MAX_KEY_AMOUNT ∧ ¬ (-1 ≤ d i ∧ d i ≤ 3)) := by
  obtain ⟨h1, h2, h3⟩ := foldl_presetStep d (List.range PKP_MAX_KEY_AMOUNT) (false, s)
  have hs : (presetDefaultKeyStates s d).2
      = ((List.range PKP_MAX_KEY_AMOUNT).foldl (presetStep d) (false, s)).2 := by
    unfold presetDefaultKeyStates
    simp only []
    split <;> rfl
  have h3' : ((List.range PKP_MAX_KEY_AMOUNT).foldl (presetStep d) (false, s)).1 = true ↔
      ∃ i, i < PKP_MAX_KEY_AMOUNT ∧ ¬ (-1 ≤ d i ∧ d i ≤ 3) := by
    rw [h3]
    simp [List.mem_range]
  refine ⟨?_, ?_, fun i hi => ⟨fun hv => ?_, fun hv => ?_⟩, ?_, ?_⟩
  · rw [hs]; exact h1
  · rw [hs, h1]
  · rw [hs, h2 i, if_pos ⟨List.mem_range.2 hi, hv⟩]
    exact toU8_of_range _ hv.1 (by omega)
  · rw [hs, h2 i, if_neg (fun c => hv c.2)]
  · rw [← h3']
    unfold presetDefaultKeyStates
    simp only []
    split
    · rename_i c; simp [c]
    · rename_i c; simp [c]
  · rw [← h3']
    unfold presetDefaultKeyStates
    simp only []
    split
    · rename_i c; simp [c]
    · rename_i c; simp [c]

set_option maxRecDepth 100000 in
/-- Claim C19 (fails on the code). On an initialized driver whose transmit callback
always succeeds, `setKeyColor(0, ...)` with a solid colour 8 and a blink colour 200, both
outside 0..7, returns `RS_SUCCESS` and stores both values. -/
theorem setKeyColor_accepts_bad_colour :
    (begin demoDriver).1 = RS_SUCCESS ∧
    (setKeyColor (begin demoDriver).2 0 (fun _ => 8) (fun _ => 200)).1 = RS_SUCCESS ∧
    (setKeyColor (begin demoDriver).2 0 (fun _ => 8) (fun _ => 200)).2._keyColor 0 0 = 8 ∧
    (setKeyColor (begin demoDriver).2 0 (fun _ => 8) (fun _ => 200)).2._keyBlinkColor 0 0
      = 200 := by
  decide

/-! ## LED frames -/

theorem range15 : List.range PKP_MAX_KEY_AMOUNT
    = [0, 1, 2, 3, 4, 5, 6, 7, 8, 9, 10, 11, 12, 13, 14] := by decide

theorem keyLedColStep_length (s : Pkp) (mode : Bool) (m : Nat) (p : List (Bool × Bool × Bool))
    (j : Nat) : (keyLedColStep s mode m p j).length = p.length := by
  simp [keyLedColStep]

theorem keyLedColStep_getD (s : Pkp) (mode : Bool) (m : Nat) (p : List (Bool × Bool × Bool))
    (j k : Nat) (hk : k < p.length) :
    (keyLedColStep s mode m p j).getD k (false, false, false)
      = if j = k then keyLedRowStep s mode m k (p.getD k (false, false, false))
        else p.getD k (false, false, false) := by
  unfold keyLedColStep
  rw [List.getD_eq_getElem?_getD, List.getElem?_set]
  by_cases h : j = k
  · subst h
    simp [hk]
  · simp [h]

theorem foldl_keyLedColStep (s : Pkp) (mode : Bool) (m k : Nat) (l : List Nat)
    (p : List (Bool × Bool × Bool)) (hn : l.Nodup) (hk : k < p.length) :
    (l.foldl (keyLedColStep s mode m) p).length = p.length ∧
    (l.foldl (keyLedColStep s mode m) p).getD k (false, false, false)
      = if k ∈ l then keyLedRowStep s mode m k (p.getD k (false, false, false))
        else p.getD k (false, false, false) := by
  induction l generalizing p with
  | nil => simp
  | cons j l ih =>
    rw [List.nodup_cons] at hn
    rw [List.foldl_cons]
    have hl := keyLedColStep_length s mode m p j
    obtain ⟨h1, h2⟩ := ih (keyLedColStep s mode m p j) hn.2 (by rw [hl]; exact hk)
    refine ⟨h1.trans hl, ?_⟩
    rw [h2, keyLedColStep_getD s mode m p j k hk]
    by_cases e : j = k
    · subst e
      simp [hn.1]
    · have e' : k ≠ j := fun c => e c.symm
      simp [e, e']

theorem keyLedColArray_getD (s : Pkp) (mode : Bool) (k : Nat) (hk : k < PKP_MAX_KEY_AMOUNT) :
    (keyLedColArray s mode).getD k (false, false, false)
      = keyLedRowStep s mode 3 k (keyLedRowStep s mode 2 k (keyLedRowStep s mode 1 k
          (keyLedRowStep s mode 0 k (false, false, false)))) := by
  have hr : List.range 4 = [0, 1, 2, 3] := by decide
  have hmem := List.mem_range.2 hk
  have hnd := List.nodup_range PKP_MAX_KEY_AMOUNT
  unfold keyLedColArray
  rw [hr]
  simp only [List.foldl_cons, List.foldl_nil]
  have h0 := foldl_keyLedColStep s mode 0 k _
    (List.replicate PKP_MAX_KEY_AMOUNT (false, false, false)) hnd (by simpa using hk)
  have h1 := foldl_keyLedColStep s mode 1 k _ _ hnd (by rw [h0.1]; simpa using hk)
  have h2 := foldl_keyLedColStep s mode 2 k _ _ hnd (by rw [h1.1, h0.1]; simpa using hk)
  have h3 := foldl_keyLedColStep s mode 3 k _ _ hnd (by rw [h2.1, h1.1, h0.1]; simpa using hk)
  rw [h3.2, if_pos hmem, h2.2, if_pos hmem, h1.2, if_pos hmem, h0.2, if_pos hmem]
  congr 4
  rw [List.getD_eq_getElem?_getD]
  simp [hk]

theorem keyLedFrame_data (s : Pkp) (mode : Bool) :
    (keyLedFrame s mode).data =
      [packByte ((keyLedColArray s mode).getD 0 (false, false, false)).1
         ((keyLedColArray s mode).getD 1 (false, false, false)).1
         ((keyLedColArray s mode).getD 2 (false, false, false)).1
         ((keyLedColArray s mode).getD 3 (false, false, false)).1
         ((keyLedColArray s mode).getD 4 (false, false, false)).1
         ((keyLedColArray s mode).getD 5 (false, false, false)).1
         ((keyLedColArray s mode).getD 6 (false, false, false)).1
         ((keyLedColArray s mode).getD 7 (false, false, false)).1,
       packByte ((keyLedColArray s mode).getD 8 (false, false, false)).1
         ((keyLedColArray s mode).getD 9 (false, false, false)).1
         ((keyLedColArray s mode).getD 10 (false, false, false)).1
         ((keyLedColArray s mode).getD 11 (false, false, false)).1
         ((keyLedColArray s mode).getD 12 (false, false, false)).1
         ((keyLedColArray s mode).getD 13 (false, false, false)).1
         ((keyLedColArray s mode).getD 14 (false, false, false)).1 false,
       packByte ((keyLedColArray s mode).getD 0 (false, false, false)).2.1
         ((keyLedColArray s mode).getD 1 (false, false, false)).2.1
         ((keyLedColArray s mode).getD 2 (false, false, false)).2.1
         ((keyLedColArray s mode).getD 3 (false, false, false)).2.1
         ((keyLedColArray s mode).getD 4 (false, false, false)).2.1
         ((keyLedColArray s mode).getD 5 (false, false, false)).2.1
         ((keyLedColArray s mode).getD 6 (false, false, false)).2.1
         ((keyLedColArray s mode).getD 7 (false, false, false)).2.1,
       packByte ((keyLedColArray s mode).getD 8 (false, false, false)).2.1
         ((keyLedColArray s mode).getD 9 (false, false, false)).2.1
         ((keyLedColArray s mode).getD 10 (false, false, false)).2.1
         ((keyLedColArray s mode).getD 11 (false, false, false)).2.1
         ((keyLedColArray s mode).getD 12 (false, false, false)).2.1
         ((keyLedColArray s mode).getD 13 (false, false, false)).2.1
         ((keyLedColArray s mode).getD 14 (false, false, false)).2.1 false,
       packByte ((keyLedColArray s mode).getD 0 (false, false, false)).2.2
         ((keyLedColArray s mode).getD 1 (false, false, false)).2.2
         ((keyLedColArray s mode).getD 2 (false, false, false)).2.2
         ((keyLedColArray s mode).getD 3 (false, false, false)).2.2
         ((keyLedColArray s mode).getD 4 (false, false, false)).2.2
         ((keyLedColArray s mode).getD 5 (false, false, false)).2.2
         ((keyLedColArray s mode).getD 6 (false, false, false)).2.2
         ((keyLedColArray s mode).getD 7 (false, false, false)).2.2,
       packByte ((keyLedColArray s mode).getD 8 (false, false, false)).2.2
         ((keyLedColArray s mode).getD 9 (false, false, false)).2.2
         ((keyLedColArray s mode).getD 10 (false, false, false)).2.2
         ((keyLedColArray s mode).getD 11 (false, false, false)).2.2
         ((keyLedColArray s mode).getD 12 (false, false, false)).2.2
         ((keyLedColArray s mode).getD 13 (false, false, false)).2.2
         ((keyLedColArray s mode).getD 14 (false, false, false)).2.2 false,
       0, 0] := by
  unfold keyLedFrame
  simp only [range15, List.foldl_cons, List.foldl_nil, keyLedPackStep, orByte,
    List.set_cons_zero, List.set_cons_succ, List.getD_cons_zero, List.getD_cons_succ,
    Nat.reduceAdd, Nat.reduceMod, Nat.reduceGT, if_true, if_false, Nat.zero_or, Nat.reduceLT,
    gt_iff_lt, packByte, Bool.toNat_false, Nat.zero_shiftLeft, Nat.or_zero, Nat.mod_mod]

theorem packByte_bits (b0 b1 b2 b3 b4 b5 b6 b7 : Bool) :
    checkBit (packByte b0 b1 b2 b3 b4 b5 b6 b7) 0 = b0 ∧
    checkBit (packByte b0 b1 b2 b3 b4 b5 b6 b7) 1 = b1 ∧
    checkBit (packByte b0 b1 b2 b3 b4 b5 b6 b7) 2 = b2 ∧
    checkBit (packByte b0 b1 b2 b3 b4 b5 b6 b7) 3 = b3 ∧
    checkBit (packByte b0 b1 b2 b3 b4 b5 b6 b7) 4 = b4 ∧
    checkBit (packByte b0 b1 b2 b3 b4 b5 b6 b7) 5 = b5 ∧
    checkBit (packByte b0 b1 b2 b3 b4 b5 b6 b7) 6 = b6 ∧
    checkBit (packByte b0 b1 b2 b3 b4 b5 b6 b7) 7 = b7 := by
  cases b0 <;> cases b1 <;> cases b2 <;> cases b3 <;> cases b4 <;> cases b5 <;> cases b6 <;>
    cases b7 <;> decide

theorem packByte_bit0 (b0 b1 b2 b3 b4 b5 b6 b7 : Bool) :
    checkBit (packByte b0 b1 b2 b3 b4 b5 b6 b7) 0 = b0 := (packByte_bits ..).1

theorem packByte_bit1 (b0 b1 b2 b3 b4 b5 b6 b7 : Bool) :
    checkBit (packByte b0 b1 b2 b3 b4 b5 b6 b7) 1 = b1 := (packByte_bits ..).2.1

theorem packByte_bit2 (b0 b1 b2 b3 b4 b5 b6 b7 : Bool) :
    checkBit (packByte b0 b1 b2 b3 b4 b5 b6 b7) 2 = b2 := (packByte_bits ..).2.2.1

theorem packByte_bit3 (b0 b1 b2 b3 b4 b5 b6 b7 : Bool) :
    checkBit (packByte b0 b1 b2 b3 b4 b5 b6 b7) 3 = b3 := (packByte_bits ..).2.2.2.1

theorem packByte_bit4 (b0 b1 b2 b3 b4 b5 b6 b7 : Bool) :
    checkBit (packByte b0 b1 b2 b3 b4 b5 b6 b7) 4 = b4 := (packByte_bits ..).2.2.2.2.1

theorem packByte_bit5 (b0 b1 b2 b3 b4 b5 b6 b7 : Bool) :
    checkBit (packByte b0 b1 b2 b3 b4 b5 b6 b7) 5 = b5 := (packByte_bits ..).2.2.2.2.2.1

theorem packByte_bit6 (b0 b1 b2 b3 b4 b5 b6 b7 : Bool) :
    checkBit (packByte b0 b1 b2 b3 b4 b5 b6 b7) 6 = b6 := (packByte_bits ..).2.2.2.2.2.2.1

theorem packByte_bit7 (b0 b1 b2 b3 b4 b5 b6 b7 : Bool) :
    checkBit (packByte b0 b1 b2 b3 b4 b5 b6 b7) 7 = b7 := (packByte_bits ..).2.2.2.2.2.2.2

theorem frameKeyBits_keyLedFrame (s : Pkp) (mode : Bool) (k : Nat) (hk : k < PKP_MAX_KEY_AMOUNT) :
    frameKeyBits (keyLedFrame s mode) k = (keyLedColArray s mode).getD k (false, false, false) := by
  unfold PKP_MAX_KEY_AMOUNT at hk
  interval_cases k <;>
    simp only [frameKeyBits, can_frame.byte, keyLedFrame_data, List.getD_cons_zero,
      List.getD_cons_succ, Nat.reduceGT, gt_iff_lt, Nat.reduceLT, if_true, if_false,
      Nat.reduceMod, Nat.reduceAdd, packByte_bit0, packByte_bit1, packByte_bit2, packByte_bit3,
      packByte_bit4, packByte_bit5, packByte_bit6, packByte_bit7]

theorem keyLedFrame_spare_bits (s : Pkp) (mode : Bool) :
    checkBit ((keyLedFrame s mode).byte 1) 7 = false ∧
    checkBit ((keyLedFrame s mode).byte 3) 7 = false ∧
    checkBit ((keyLedFrame s mode).byte 5) 7 = false ∧
    (keyLedFrame s mode).byte 6 = 0 ∧ (keyLedFrame s mode).byte 7 = 0 := by
  simp only [can_frame.byte, keyLedFrame_data, List.getD_cons_zero, List.getD_cons_succ,
    packByte_bit7, and_self]

theorem solid_row (s : Pkp) (k : Nat) (h : s._keyState k ≤ 3) :
    keyLedRowStep s CM_SOLID 3 k (keyLedRowStep s CM_SOLID 2 k (keyLedRowStep s CM_SOLID 1 k
      (keyLedRowStep s CM_SOLID 0 k (false, false, false))))
      = rgbBits (s._keyColor (s._keyState k) k) := by
  have hc : s._keyState k = 0 ∨ s._keyState k = 1 ∨ s._keyState k = 2 ∨ s._keyState k = 3 := by
    omega
  rcases hc with e | e | e | e <;> simp [keyLedRowStep, CM_SOLID, rgbBits, e]

theorem blink_row (s : Pkp) (k : Nat) (h : s._keyState k ≤ 3) :
    keyLedRowStep s CM_BLINK 3 k (keyLedRowStep s CM_BLINK 2 k (keyLedRowStep s CM_BLINK 1 k
      (keyLedRowStep s CM_BLINK 0 k (false, false, false))))
      = if s._keyColor (s._keyState k) k ≠ 0 ∧ s._keyBlinkColor (s._keyState k) k ≠ 0 then
          ((rgbBits (s._keyColor (s._keyState k) k)).1
              || (rgbBits (s._keyBlinkColor (s._keyState k) k)).1,
           (rgbBits (s._keyColor (s._keyState k) k)).2.1
              || (rgbBits (s._keyBlinkColor (s._keyState k) k)).2.1,
           (rgbBits (s._keyColor (s._keyState k) k)).2.2
              || (rgbBits (s._keyBlinkColor (s._keyState k) k)).2.2)
        else rgbBits (s._keyBlinkColor (s._keyState k) k) := by
  have hc : s._keyState k = 0 ∨ s._keyState k = 1 ∨ s._keyState k = 2 ∨ s._keyState k = 3 := by
    omega
  rcases hc with e | e | e | e <;>
    by_cases c1 : s._keyColor (s._keyState k) k = 0 <;>
    by_cases c2 : s._keyBlinkColor (s._keyState k) k = 0 <;>
    simp only [e] at c1 c2 <;>
    simp [keyLedRowStep, CM_SOLID, CM_BLINK, rgbBits, e, c1, c2]

theorem rgbBits_eq_testBit (c : Nat) : rgbBits c = (c.testBit 2, c.testBit 1, c.testBit 0) := by
  simp [rgbBits, Nat.testBit, Nat.and_comm]

theorem foldl_setKeyColorStep (k : Nat) (colors blinkColors : Nat → Nat)
    (hin : inLimits (k : Int) 0 ((PKP_MAX_KEY_AMOUNT - 1 : Nat) : Int) = true)
    (l : List Nat) (acc : Bool × Pkp) :
    (l.foldl (setKeyColorStep k colors blinkColors) acc).2._keyState = acc.2._keyState ∧
    (∀ m, m ∈ l →
      (l.foldl (setKeyColorStep k colors blinkColors) acc).2._keyColor m k = colors m ∧
      (l.foldl (setKeyColorStep k colors blinkColors) acc).2._keyBlinkColor m k
        = blinkColors m) := by
  induction l generalizing acc with
  | nil => exact ⟨rfl, fun m hm => absurd hm (List.not_mem_nil m)⟩
  | cons i l ih =>
    rw [List.foldl_cons]
    obtain ⟨h1, h2⟩ := ih (setKeyColorStep k colors blinkColors acc i)
    have hs : (setKeyColorStep k colors blinkColors acc i).2._keyState = acc.2._keyState := by
      simp only [setKeyColorStep, hin, Bool.not_true, Bool.false_eq_true, if_false]
    refine ⟨h1.trans hs, fun m hm => ?_⟩
    by_cases hml : m ∈ l
    · exact h2 m hml
    · have e : m = i := by
        rcases List.mem_cons.1 hm with h | h
        · exact h
        · exact absurd h hml
      subst e
      have hkeep : ∀ (l' : List Nat) (acc' : Bool × Pkp), m ∉ l' →
          (l'.foldl (setKeyColorStep k colors blinkColors) acc').2._keyColor m k
            = acc'.2._keyColor m k ∧
          (l'.foldl (setKeyColorStep k colors blinkColors) acc').2._keyBlinkColor m k
            = acc'.2._keyBlinkColor m k := by
        intro l'
        induction l' with
        | nil => intro acc' _; exact ⟨rfl, rfl⟩
        | cons j l' ih' =>
          intro acc' hj
          simp only [List.mem_cons, not_or] at hj
          rw [List.foldl_cons, (ih' _ hj.2).1, (ih' _ hj.2).2]
          simp only [setKeyColorStep, hin, Bool.not_true, Bool.false_eq_true, if_false]
          simp [Function.update, hj.1]
      rw [(hkeep l _ hml).1, (hkeep l _ hml).2]
      simp only [setKeyColorStep, hin, Bool.not_true, Bool.false_eq_true, if_false]
      simp [Function.update]

theorem OnlyLog.keyStateLog {s t : Pkp} (h : OnlyLog s t) : t._keyState = s._keyState := by
  rw [h]

theorem OnlyLog.keyColor {s t : Pkp} (h : OnlyLog s t) : t._keyColor = s._keyColor := by
  rw [h]

/-- Claim C20. The solid-colour frame built by the driver has identifier 0x200 + node
address and length 6; for a key `k < 15` in logical state `st ≤ 3` with solid colour
`c = keyColor[st][k]`, bit `k mod 8` of payload byte 0 or 1 (keys 9 to 15) is bit 2 of `c`,
the same bit of byte 2 or 3 is bit 1 of `c` and the same bit of byte 4 or 5 is bit 0 of `c`;
bit 7 of bytes 1, 3, 5 and bytes 6, 7 are zero. Hence after `setKeyColor(k, colors, blink)`
the solid frame carries the bits of `colors[st]` at the position of key `k`. -/
theorem solid_frame_packing (s : Pkp) (k : Nat) (hk : k < PKP_MAX_KEY_AMOUNT)
    (hs : s._keyState k ≤ 3) :
    (keyLedFrame s CM_SOLID).can_id = CAN_TX_BASE_ID_KEY_COLOR + s._canId ∧
    (keyLedFrame s CM_SOLID).can_dlc = 6 ∧
    frameKeyBits (keyLedFrame s CM_SOLID) k
      = ((s._keyColor (s._keyState k) k).testBit 2, (s._keyColor (s._keyState k) k).testBit 1,
         (s._keyColor (s._keyState k) k).testBit 0) ∧
    (checkBit ((keyLedFrame s CM_SOLID).byte 1) 7 = false ∧
     checkBit ((keyLedFrame s CM_SOLID).byte 3) 7 = false ∧
     checkBit ((keyLedFrame s CM_SOLID).byte 5) 7 = false ∧
     (keyLedFrame s CM_SOLID).byte 6 = 0 ∧ (keyLedFrame s CM_SOLID).byte 7 = 0) ∧
    (∀ colors blinkColors : Nat → Nat,
      frameKeyBits (keyLedFrame (setKeyColor s k colors blinkColors).2 CM_SOLID) k
        = ((colors (s._keyState k)).testBit 2, (colors (s._keyState k)).testBit 1,
           (colors (s._keyState k)).testBit 0)) := by
  have hbits : ∀ t : Pkp, t._keyState k ≤ 3 →
      frameKeyBits (keyLedFrame t CM_SOLID) k
        = ((t._keyColor (t._keyState k) k).testBit 2, (t._keyColor (t._keyState k) k).testBit 1,
           (t._keyColor (t._keyState k) k).testBit 0) := by
    intro t ht
    rw [frameKeyBits_keyLedFrame t CM_SOLID k hk, keyLedColArray_getD t CM_SOLID k hk,
      solid_row t k ht, rgbBits_eq_testBit]
  refine ⟨rfl, rfl, hbits s hs, keyLedFrame_spare_bits s CM_SOLID, fun colors blinkColors => ?_⟩
  have hin : inLimits (k : Int) 0 ((PKP_MAX_KEY_AMOUNT - 1 : Nat) : Int) = true := by
    unfold PKP_MAX_KEY_AMOUNT at *
    simp [inLimits]
    omega
  have hf := foldl_setKeyColorStep k colors blinkColors hin (List.range 4) (false, s)
  have hol : OnlyLog ((List.range 4).foldl (setKeyColorStep k colors blinkColors) (false, s)).2
      (setKeyColor s k colors blinkColors).2 := by
    unfold setKeyColor
    simp only [hin, Bool.not_true, Bool.false_eq_true, if_false]
    exact maxCall_update_keyLeds_onlyLog _ _
  have hst : (setKeyColor s k colors blinkColors).2._keyState = s._keyState := by
    rw [hol.keyStateLog, hf.1]
  have hcol : (setKeyColor s k colors blinkColors).2._keyColor (s._keyState k) k
      = colors (s._keyState k) := by
    rw [hol.keyColor]
    exact (hf.2 (s._keyState k) (List.mem_range.2 (by omega))).1
  rw [hbits _ (by rw [hst]; exact hs), hst, hcol]

set_option maxRecDepth 100000 in
/-- Claim C20, example: key 4 in state 0 with solid colour violet (0b101) sets bit 3 of
the red and of the blue byte. -/
theorem solid_frame_packing_witness :
    frameKeyBits
      (keyLedFrame (setKeyColor demoDriver 3 (fun _ => 0b101) (fun _ => 0)).2 CM_SOLID) 3
      = (true, false, true) :=
  ((solid_frame_packing demoDriver 3 (by decide) (by decide)).2.2.2.2
    (fun _ => 0b101) (fun _ => 0)).trans (by decide)

set_option maxRecDepth 100000 in
/-- Claim C21, counterexample: key 1 in state 0 with solid colour 0 and blink colour
white (0b111): the blink frame carries the three bits of the blink colour although the
solid colour is zero. -/
theorem blink_bits_without_solid_colour :
    (setKeyColor demoDriver 0 (fun _ => 0) (fun _ => 0b111)).2._keyState 0 = 0 ∧
    (setKeyColor demoDriver 0 (fun _ => 0) (fun _ => 0b111)).2._keyColor 0 0 = 0 ∧
    (keyLedFrame (setKeyColor demoDriver 0 (fun _ => 0) (fun _ => 0b111)).2 CM_BLINK).can_id
      = 0x300 + 0x15 ∧
    frameKeyBits
      (keyLedFrame (setKeyColor demoDriver 0 (fun _ => 0) (fun _ => 0b111)).2 CM_BLINK) 0
      = (true, true, true) := by
  decide

/-- Claim C21, amended. In the blink-colour frame (identifier 0x300 + node address) the
three bits carried for a key `k < 15` in logical state `st ≤ 3` are the bitwise OR of the
solid and blink RGB bits when both colours of that state are non-zero, and the RGB bits of
the blink colour alone otherwise; so they are non-zero only if the blink colour is
non-zero. -/
theorem blink_frame_packing (s : Pkp) (k : Nat) (hk : k < PKP_MAX_KEY_AMOUNT)
    (hs : s._keyState k ≤ 3) :
    (keyLedFrame s CM_BLINK).can_id = CAN_TX_BASE_ID_KEY_BLINK + s._canId ∧
    frameKeyBits (keyLedFrame s CM_BLINK) k
      = (if s._keyColor (s._keyState k) k ≠ 0 ∧ s._keyBlinkColor (s._keyState k) k ≠ 0 then
          ((s._keyColor (s._keyState k) k).testBit 2
              || (s._keyBlinkColor (s._keyState k) k).testBit 2,
           (s._keyColor (s._keyState k) k).testBit 1
              || (s._keyBlinkColor (s._keyState k) k).testBit 1,
           (s._keyColor (s._keyState k) k).testBit 0
              || (s._keyBlinkColor (s._keyState k) k).testBit 0)
        else
          ((s._keyBlinkColor (s._keyState k) k).testBit 2,
           (s._keyBlinkColor (s._keyState k) k).testBit 1,
           (s._keyBlinkColor (s._keyState k) k).testBit 0)) ∧
    (frameKeyBits (keyLedFrame s CM_BLINK) k ≠ (false, false, false) →
      s._keyBlinkColor (s._keyState k) k ≠ 0) := by
  have hb : frameKeyBits (keyLedFrame s CM_BLINK) k
      = (if s._keyColor (s._keyState k) k ≠ 0 ∧ s._keyBlinkColor (s._keyState k) k ≠ 0 then
          ((s._keyColor (s._keyState k) k).testBit 2
              || (s._keyBlinkColor (s._keyState k) k).testBit 2,
           (s._keyColor (s._keyState k) k).testBit 1
              || (s._keyBlinkColor (s._keyState k) k).testBit 1,
           (s._keyColor (s._keyState k) k).testBit 0
              || (s._keyBlinkColor (s._keyState k) k).testBit 0)
        else
          ((s._keyBlinkColor (s._keyState k) k).testBit 2,
           (s._keyBlinkColor (s._keyState k) k).testBit 1,
           (s._keyBlinkColor (s._keyState k) k).testBit 0)) := by
    rw [frameKeyBits_keyLedFrame s CM_BLINK k hk, keyLedColArray_getD s CM_BLINK k hk,
      blink_row s k hs]
    simp only [rgbBits_eq_testBit]
  refine ⟨rfl, hb, fun hne hz => hne ?_⟩
  rw [hb, hz]
  simp

set_option maxRecDepth 100000 in
/-- Claim C21, example: key 1 in state 0 with solid colour red (0b100) and blink colour
blue (0b001) carries red and blue in the blink frame. -/
theorem blink_frame_packing_witness :
    frameKeyBits
      (keyLedFrame (setKeyColor demoDriver 0 (fun _ => 0b100) (fun _ => 0b001)).2 CM_BLINK) 0
      = (true, false, true) :=
  (blink_frame_packing (setKeyColor demoDriver 0 (fun _ => 0b100) (fun _ => 0b001)).2 0
    (by decide) (by decide)).2.1.trans (by decide)

theorem transmit_log (s : Pkp) (m : can_frame) (b : Bool) (cb : CanMsgTxCallback)
    (hi : s._initialized = true) (hc : s._transmitMessage = some cb) :
    (_transmit s m b).2.txLog = s.txLog ++ [m] := by
  unfold _transmit
  simp only [hi, hc]
  split_ifs <;> first | rfl | simp_all

/-- Claim C27. The encoder LED frame that an initialized driver hands to its transmit
callback is, when both blink-LED values are 0, the plain layout (identifier 0x400 + node
address, length 4, the solid LED values of encoder 0 and encoder 1, each low byte first)
and, when a blink-LED value is non-zero, the blinking layout (identifier 0x600 + node
address, length 8, payload 0x23 0x02 0x20 0x04 and then the blink-LED values of encoder 0
and encoder 1, each low byte first). -/
theorem encoder_led_frame_layout (s : Pkp) (cb : CanMsgTxCallback)
    (hi : s._initialized = true) (hc : s._transmitMessage = some cb) :
    (s._currentEncoderBlinkLed 0 = 0 ∧ s._currentEncoderBlinkLed 1 = 0 →
      (_writeEncoderLeds s).2.txLog = s.txLog ++
        [{ can_id := CAN_TX_BASE_ID_ENCODER_LED + s._canId, can_dlc := 4,
           data := [s._currentEncoderLed 0 % 256, s._currentEncoderLed 0 / 256 % 256,
                    s._currentEncoderLed 1 % 256, s._currentEncoderLed 1 / 256 % 256,
                    0, 0, 0, 0] }]) ∧
    (¬ (s._currentEncoderBlinkLed 0 = 0 ∧ s._currentEncoderBlinkLed 1 = 0) →
      (_writeEncoderLeds s).2.txLog = s.txLog ++
        [{ can_id := CAN_TX_BASE_ID_SDO + s._canId, can_dlc := 8,
           data := [0x23, 0x02, 0x20, 0x04,
                    s._currentEncoderBlinkLed 0 % 256, s._currentEncoderBlinkLed 0 / 256 % 256,
                    s._currentEncoderBlinkLed 1 % 256,
                    s._currentEncoderBlinkLed 1 / 256 % 256] }]) := by
  have hr : List.range PKP_MAX_ROTARY_ENCODER_AMOUNT = [0, 1] := by decide
  have hand : ∀ x : Nat, x &&& 0xFF = x % 256 := fun x => Nat.and_pow_two_sub_one_eq_mod x 8
  have hshift : ∀ x : Nat, x >>> 8 = x / 256 := fun x => Nat.shiftRight_eq_div_pow x 8
  have hf := foldl_encoderLedStep_txLog (List.range PKP_MAX_ROTARY_ENCODER_AMOUNT) (false, s)
  have hcfg := foldl_encoderLedStep_cfgFoot (List.range PKP_MAX_ROTARY_ENCODER_AMOUNT) (false, s)
  have hcb : ((List.range PKP_MAX_ROTARY_ENCODER_AMOUNT).foldl encoderLedStep
      (false, s)).2._transmitMessage = some cb := by
    rw [hcfg]; exact hc
  have hlog : (_writeEncoderLeds s).2.txLog = s.txLog ++
      [encoderLedFrame ((List.range PKP_MAX_ROTARY_ENCODER_AMOUNT).foldl encoderLedStep (false, s)).2
        ((List.range PKP_MAX_ROTARY_ENCODER_AMOUNT).foldl encoderLedStep (false, s)).1] := by
    unfold _writeEncoderLeds
    simp only []
    rw [transmit_log _ _ _ cb (hf.2.trans hi) hcb, hf.1]
  rw [hlog]
  constructor
  · rintro ⟨h0, h1⟩
    simp [hr, encoderLedStep, h0, h1, encoderLedFrame, hand, hshift]
  · intro hne
    by_cases h0 : s._currentEncoderBlinkLed 0 = 0
    · have h1 : s._currentEncoderBlinkLed 1 ≠ 0 := fun h1 => hne ⟨h0, h1⟩
      have h1' : 0 < s._currentEncoderBlinkLed 1 := Nat.pos_of_ne_zero h1
      simp [hr, encoderLedStep, h0, h1', encoderLedFrame, hand, hshift]
    · have h0' : 0 < s._currentEncoderBlinkLed 0 := Nat.pos_of_ne_zero h0
      by_cases h1 : s._currentEncoderBlinkLed 1 = 0
      · simp [hr, encoderLedStep, h0', h1, encoderLedFrame, hand, hshift]
      · have h1' : 0 < s._currentEncoderBlinkLed 1 := Nat.pos_of_ne_zero h1
        simp [hr, encoderLedStep, h0', h1', encoderLedFrame, hand, hshift]

set_option maxRecDepth 100000 in
/-- Claim C27, example: an initialized driver whose solid LED values are 0x1234 and 5
sends the plain layout with the two values low byte first. -/
theorem encoder_led_frame_layout_witness :
    (_writeEncoderLeds
      { (begin demoDriver).2 with
        _currentEncoderLed := fun i => if i = 0 then 0x1234 else 5 }).2.txLog
      = (begin demoDriver).2.txLog ++
        [{ can_id := 0x415, can_dlc := 4, data := [0x34, 0x12, 5, 0, 0, 0, 0, 0] }] :=
  ((encoder_led_frame_layout
    { (begin demoDriver).2 with _currentEncoderLed := fun i => if i = 0 then 0x1234 else 5 }
    (fun _ _ => 0) (by decide) rfl).1 ⟨by decide, by decide⟩).trans (by decide)

/-! ## Dispatch and watchdog -/

theorem watchdog_nothing_eq (s : Pkp) (now : Nat) :
    (_keypadStatusWatchdog s now MSG_RECEIVED_NOTHING).2 =
      if subU32 now s._lastCanFrameTimestamp ≥ s._canNodeWatchdogTime then
        if subU32 now s._lastReconnectTry > s._canNodeReconnectInterval then
          { (_initializeKeypad (linkDownState s)).2 with _lastReconnectTry := now }
        else linkDownState s
      else s := by
  unfold _keypadStatusWatchdog linkDownState
  simp only []
  split
  · split <;> rfl
  · rfl

/-- Claim C22. `process` returns true exactly when the frame identifier is the node
address plus 0x180, 0x280, 0x380, 0x480 or 0x700; when it returns true the link status
afterwards is link-up and the last-valid-frame timestamp is the current time; when it
returns false the last-valid-frame timestamp, the key pressed flags, the encoder
positions and ticks and the wired-input values are unchanged. -/
theorem process_dispatch (s : Pkp) (now : Nat) (f : can_frame) :
    ((process s now f).1 = true ↔ recognized s._canId f.can_id) ∧
    ((process s now f).1 = true →
      (process s now f).2._keypadCanStatus = KPS_RX_WITHIN_LAST_SECOND ∧
      (process s now f).2._lastCanFrameTimestamp = now) ∧
    ((process s now f).1 = false →
      (process s now f).2._lastCanFrameTimestamp = s._lastCanFrameTimestamp ∧
      (process s now f).2._keyPressed = s._keyPressed ∧
      (process s now f).2._encoderPosition = s._encoderPosition ∧
      (process s now f).2._relativeEncoderTicks = s._relativeEncoderTicks ∧
      (process s now f).2._wiredInputValue = s._wiredInputValue) := by
  unfold process recognized
  split_ifs with a b c d e
  · exact ⟨⟨fun _ => Or.inl a, fun _ => rfl⟩, fun _ => ⟨rfl, rfl⟩, (fun h => by cases h)⟩
  · exact ⟨⟨fun _ => Or.inr (Or.inl b), fun _ => rfl⟩, fun _ => ⟨rfl, rfl⟩,
      (fun h => by cases h)⟩
  · exact ⟨⟨fun _ => Or.inr (Or.inr (Or.inl c)), fun _ => rfl⟩, fun _ => ⟨rfl, rfl⟩,
      (fun h => by cases h)⟩
  · exact ⟨⟨fun _ => Or.inr (Or.inr (Or.inr (Or.inl d))), fun _ => rfl⟩, fun _ => ⟨rfl, rfl⟩,
      (fun h => by cases h)⟩
  · exact ⟨⟨fun _ => Or.inr (Or.inr (Or.inr (Or.inr e))), fun _ => rfl⟩, fun _ => ⟨rfl, rfl⟩,
      (fun h => by cases h)⟩
  · have hw := watchdog_nothing_watchFoot s now
    refine ⟨⟨(fun h => by cases h), ?_⟩, (fun h => by cases h), fun _ => ?_⟩
    · rintro (h | h | h | h | h)
      · exact absurd h a
      · exact absurd h b
      · exact absurd h c
      · exact absurd h d
      · exact absurd h e
    · refine ⟨?_, ?_, ?_, ?_, ?_⟩
      · show (_keypadStatusWatchdog s now MSG_RECEIVED_NOTHING).2._lastCanFrameTimestamp = _
        rw [hw]
      · show (_keypadStatusWatchdog s now MSG_RECEIVED_NOTHING).2._keyPressed = _
        rw [hw]
      · show (_keypadStatusWatchdog s now MSG_RECEIVED_NOTHING).2._encoderPosition = _
        rw [hw]
      · show (_keypadStatusWatchdog s now MSG_RECEIVED_NOTHING).2._relativeEncoderTicks = _
        rw [hw]
      · show (_keypadStatusWatchdog s now MSG_RECEIVED_NOTHING).2._wiredInputValue = _
        rw [hw]

set_option maxRecDepth 100000 in
/-- Claim C23, counterexample: `getStatus` on the freshly constructed driver at clock
value 5000 runs the init sequence and hands eleven frames to the transmit callback. -/
theorem getStatus_transmits_on_reconnect :
    demoDriver.txLog = [] ∧ (getStatus demoDriver 5000).2.txLog.length = 11 := by
  decide

/-- Claim C23, amended. `getRelativeEncoderTicks` never hands a frame to the transmit
callback (and `getEncoderPosition`, `getKeyPress`, `getKeyState`, `getWiredInput` only
read the driver); `getStatus` hands over no frame unless the watchdog window has been
reached and more than the reconnect interval has passed since the last reconnect attempt,
in which case it runs the init sequence on the link-down driver. -/
theorem getters_transmit_only_on_reconnect (s : Pkp) (now : Nat) :
    (∀ i, (getRelativeEncoderTicks s i).2.txLog = s.txLog) ∧
    (¬ (subU32 now s._lastCanFrameTimestamp ≥ s._canNodeWatchdogTime ∧
        subU32 now s._lastReconnectTry > s._canNodeReconnectInterval) →
      (getStatus s now).2.txLog = s.txLog) ∧
    ((subU32 now s._lastCanFrameTimestamp ≥ s._canNodeWatchdogTime ∧
        subU32 now s._lastReconnectTry > s._canNodeReconnectInterval) →
      (getStatus s now).2.txLog = (_initializeKeypad (linkDownState s)).2.txLog) := by
  refine ⟨fun i => ?_, fun h => ?_, fun h => ?_⟩
  · unfold getRelativeEncoderTicks
    split <;> rfl
  · unfold getStatus
    rw [watchdog_nothing_eq]
    by_cases h1 : subU32 now s._lastCanFrameTimestamp ≥ s._canNodeWatchdogTime
    · have h2 : ¬ subU32 now s._lastReconnectTry > s._canNodeReconnectInterval :=
        fun c => h ⟨h1, c⟩
      rw [if_pos h1, if_neg h2]
      rfl
    · rw [if_neg h1]
  · unfold getStatus
    rw [watchdog_nothing_eq, if_pos h.1, if_pos h.2]

/-- Claim C23, example: a status query 100 ms after construction transmits nothing. -/
theorem getters_transmit_only_on_reconnect_witness :
    (getStatus demoDriver 100).2.txLog = demoDriver.txLog :=
  (getters_transmit_only_on_reconnect demoDriver 100).2.1 (by decide)

set_option maxRecDepth 100000 in
/-- Claim C25, counterexample: a heartbeat frame arrives at clock value 0 while key 1 is
overridden to state 2; a status query exactly 1200 ms later (elapsed time equal to the
watchdog window) reports link-down and resets the key to state 0. -/
theorem link_lost_at_exactly_the_window :
    subU32 1200
      (process (setKeyStateOverride demoDriver 0 2).2 0 demoHeartbeatFrame).2._lastCanFrameTimestamp
      ≤ 1200 ∧
    (process (setKeyStateOverride demoDriver 0 2).2 0 demoHeartbeatFrame).2._keypadCanStatus
      = KPS_RX_WITHIN_LAST_SECOND ∧
    getKeyState (process (setKeyStateOverride demoDriver 0 2).2 0 demoHeartbeatFrame).2 0 = 2 ∧
    (getStatus (process (setKeyStateOverride demoDriver 0 2).2 0 demoHeartbeatFrame).2 1200).1
      = KPS_NO_RX_WITHIN_LAST_SECOND ∧
    getKeyState
      (getStatus (process (setKeyStateOverride demoDriver 0 2).2 0 demoHeartbeatFrame).2 1200).2 0
      = 0 := by
  decide

/-- Claim C25, amended. When the time elapsed since the last valid inbound frame is less
than the watchdog window, a "nothing received" evaluation (`getStatus`, or `process` of a
frame that is not recognised) leaves the driver as it is: the status is not set to
link-down, no key state changes and nothing is transmitted. -/
theorem link_kept_within_window (s : Pkp) (now : Nat)
    (h : subU32 now s._lastCanFrameTimestamp < s._canNodeWatchdogTime) :
    getStatus s now = (s._keypadCanStatus, s) ∧
    ∀ f : can_frame, ¬ recognized s._canId f.can_id → process s now f = (false, s) := by
  have hw : _keypadStatusWatchdog s now MSG_RECEIVED_NOTHING = (s._keypadCanStatus, s) := by
    unfold _keypadStatusWatchdog
    simp only []
    rw [if_neg (by omega)]
  refine ⟨hw, fun f hf => ?_⟩
  unfold recognized at hf
  simp only [not_or] at hf
  unfold process
  rw [if_neg hf.1, if_neg hf.2.1, if_neg hf.2.2.1, if_neg hf.2.2.2.1, if_neg hf.2.2.2.2, hw]

set_option maxRecDepth 100000 in
/-- Claim C25, example: a status query 1199 ms after the last valid frame changes
nothing. -/
theorem link_kept_within_window_witness :
    getStatus (process demoDriver 0 demoHeartbeatFrame).2 1199
      = (KPS_RX_WITHIN_LAST_SECOND, (process demoDriver 0 demoHeartbeatFrame).2) :=
  (link_kept_within_window (process demoDriver 0 demoHeartbeatFrame).2 1199 (by decide)).1

/-- Claim C26. In a "nothing received" evaluation at time `now` that finds the link down,
the init sequence is retried exactly when `now` minus the last-reconnect-attempt timestamp
is greater than the reconnect interval; when it is retried the timestamp becomes `now`
whatever the retry returns; when it is not retried no frame is transmitted and the
timestamp is unchanged; `process` of an unrecognised frame does the same as `getStatus`;
and after a retry at `now` an evaluation at a time within the reconnect interval of `now`
transmits nothing. -/
theorem reconnect_cadence (s : Pkp) (now : Nat)
    (hdown : subU32 now s._lastCanFrameTimestamp ≥ s._canNodeWatchdogTime) :
    (subU32 now s._lastReconnectTry > s._canNodeReconnectInterval →
      (getStatus s now).2
        = { (_initializeKeypad (linkDownState s)).2 with _lastReconnectTry := now } ∧
      (getStatus s now).2._lastReconnectTry = now ∧
      ∀ later, subU32 later now ≤ s._canNodeReconnectInterval →
        (getStatus (getStatus s now).2 later).2.txLog = (getStatus s now).2.txLog) ∧
    (¬ subU32 now s._lastReconnectTry > s._canNodeReconnectInterval →
      (getStatus s now).2 = linkDownState s ∧
      (getStatus s now).2.txLog = s.txLog ∧
      (getStatus s now).2._lastReconnectTry = s._lastReconnectTry) ∧
    (∀ f : can_frame, ¬ recognized s._canId f.can_id →
      (process s now f).2 = (getStatus s now).2) := by
  refine ⟨fun h => ?_, fun h => ?_, fun f hf => ?_⟩
  · have e : (getStatus s now).2
        = { (_initializeKeypad (linkDownState s)).2 with _lastReconnectTry := now } := by
      unfold getStatus
      rw [watchdog_nothing_eq, if_pos hdown, if_pos h]
    refine ⟨e, by rw [e], fun later hl => ?_⟩
    have hi := initializeKeypad_initFoot (linkDownState s)
    have hint : (getStatus s now).2._canNodeReconnectInterval = s._canNodeReconnectInterval := by
      rw [e]
      show (_initializeKeypad (linkDownState s)).2._canNodeReconnectInterval = _
      rw [hi]
      rfl
    have hlast : (getStatus s now).2._lastReconnectTry = now := by rw [e]
    generalize (getStatus s now).2 = u at hint hlast
    unfold getStatus
    rw [watchdog_nothing_eq]
    split
    · rw [hlast, hint, if_neg (by omega)]
      rfl
    · rfl
  · have e : (getStatus s now).2 = linkDownState s := by
      unfold getStatus
      rw [watchdog_nothing_eq, if_pos hdown, if_neg h]
    exact ⟨e, by rw [e]; rfl, by rw [e]; rfl⟩
  · unfold recognized at hf
    simp only [not_or] at hf
    unfold process getStatus
    rw [if_neg hf.1, if_neg hf.2.1, if_neg hf.2.2.1, if_neg hf.2.2.2.1, if_neg hf.2.2.2.2]

set_option maxRecDepth 100000 in
/-- Claim C26, example: on the freshly constructed driver a status query at clock value
5000 retries the init sequence and sets the reconnect timestamp to 5000. -/
theorem reconnect_cadence_witness :
    (getStatus demoDriver 5000).2._lastReconnectTry = 5000 :=
  ((reconnect_cadence demoDriver 5000 (by decide)).1 (by decide)).2.1

/-! ## Range invariant of the key records -/

theorem KeyInv.of_eq {s t : Pkp} (hs : KeyInv s) (h1 : t._keyState = s._keyState)
    (h2 : t._defaultKeyState = s._defaultKeyState)
    (h3 : t._overrideKeyState = s._overrideKeyState) : KeyInv t := by
  intro k hk
  rw [h1, h2, h3]
  exact hs k hk

theorem KeyInv.of_initFoot {s t : Pkp} (hs : KeyInv s) (h : InitFoot s t) : KeyInv t :=
  hs.of_eq (by rw [h]) (by rw [h]) (by rw [h])

theorem KeyInv.of_onlyLog {s t : Pkp} (hs : KeyInv s) (h : OnlyLog s t) : KeyInv t :=
  hs.of_eq (by rw [h]) (by rw [h]) (by rw [h])

theorem KeyInv.of_rxFoot {s t : Pkp} (hs : KeyInv s) (h : RxFoot s t) : KeyInv t :=
  hs.of_eq (by rw [h]) (by rw [h]) (by rw [h])

theorem KeyInv.ofLinkDown {s : Pkp} (hs : KeyInv s) : KeyInv (linkDownState s) := by
  intro k hk
  have h := hs k hk
  simp only [linkDownState, hk, if_true]
  exact ⟨h.2.1, h.2.1, h.2.2⟩

theorem KeyInv.ofWatchdog {s : Pkp} (hs : KeyInv s) (now : Nat) :
    KeyInv (_keypadStatusWatchdog s now MSG_RECEIVED_NOTHING).2 := by
  rw [watchdog_nothing_eq]
  split
  · split
    · have h := hs.ofLinkDown.of_initFoot (initializeKeypad_initFoot (linkDownState s))
      exact h.of_eq rfl rfl rfl
    · exact hs.ofLinkDown
  · exact hs

theorem KeyInv.ofDecodeKeyStates {s : Pkp} (hs : KeyInv s) (data : List Nat) :
    KeyInv (_decodeKeyStates s data).2 := by
  intro k hk
  have hv := decodeKeyStates_keyView s data k hk
  rw [decodeKeyStep_self] at hv
  simp only [keyView, Prod.mk.injEq] at hv
  obtain ⟨-, -, h3, -, h5⟩ := hv
  have hd : (_decodeKeyStates s data).2._defaultKeyState = s._defaultKeyState := by
    rw [decodeKeyStates_keysFoot s data]
  obtain ⟨i1, i2, i3, i4⟩ := hs k hk
  rw [h3, h5, hd]
  refine ⟨?_, i2, i3, i4⟩
  by_cases c : s._overrideKeyState k ≥ 0
  · rw [if_pos c]
    have := toU8_of_range _ c (by omega)
    omega
  · rw [if_neg c]
    have hb : (keyBit data k).toNat ≤ 1 := by cases keyBit data k <;> decide
    split_ifs <;> omega

theorem KeyInv.ofProcess {s : Pkp} (hs : KeyInv s) (now : Nat) (f : can_frame) :
    KeyInv (process s now f).2 := by
  by_cases hk : f.can_id = CAN_RX_BASE_ID_KEYS + s._canId
  · rw [process_keys s now f hk]
    exact (hs.ofDecodeKeyStates f.data).of_eq rfl rfl rfl
  · by_cases hr : recognized s._canId f.can_id
    · exact hs.of_rxFoot (process_nonkey_rxFoot s now f hk hr)
    · unfold recognized at hr
      simp only [not_or] at hr
      unfold process
      rw [if_neg hr.1, if_neg hr.2.1, if_neg hr.2.2.1, if_neg hr.2.2.2.1, if_neg hr.2.2.2.2]
      exact hs.ofWatchdog now

theorem foldl_setEncoderLedStep_cfgFoot (leds : Nat → Int) (l : List Nat) (acc : Bool × Pkp) :
    CfgFoot acc.2 (l.foldl (setEncoderLedStep leds) acc).2 := by
  induction l generalizing acc with
  | nil => exact CfgFoot.reflCfg _
  | cons i l ih =>
    rw [List.foldl_cons]
    refine CfgFoot.transCfg ?_ (ih _)
    unfold setEncoderLedStep
    split
    · rfl
    · rfl

theorem CfgFoot.toInitFoot {s t : Pkp} (h : CfgFoot s t) : InitFoot s t := by
  unfold InitFoot CfgFoot at *
  rw [h]

theorem setEncoderLeds_initFoot (s : Pkp) (leds : Nat → Int) :
    InitFoot s (setEncoderLeds s leds).2 := by
  unfold setEncoderLeds
  simp only []
  have h := (foldl_setEncoderLedStep_cfgFoot leds (List.range PKP_MAX_ROTARY_ENCODER_AMOUNT)
    (false, s)).toInitFoot
  split
  · exact h.transInit (update_initFoot _ _)
  · exact h

theorem foldl_setKeyColorStep_colorFoot (k : Nat) (colors blinkColors : Nat → Nat)
    (l : List Nat) (acc : Bool × Pkp) :
    ColorFoot acc.2 (l.foldl (setKeyColorStep k colors blinkColors) acc).2 := by
  induction l generalizing acc with
  | nil => rfl
  | cons i l ih =>
    rw [List.foldl_cons]
    have h1 : ColorFoot acc.2 (setKeyColorStep k colors blinkColors acc i).2 := by
      unfold setKeyColorStep
      split <;> rfl
    have h2 := ih (setKeyColorStep k colors blinkColors acc i)
    unfold ColorFoot at *
    rw [h2, h1]

theorem setKeyColor_colorFoot (s : Pkp) (k : Nat) (colors blinkColors : Nat → Nat) :
    ColorFoot s (setKeyColor s k colors blinkColors).2 := by
  unfold setKeyColor
  split
  · rfl
  · have h1 := foldl_setKeyColorStep_colorFoot k colors blinkColors (List.range 4) (false, s)
    have h2 := maxCall_update_keyLeds_onlyLog
      (if ((List.range 4).foldl (setKeyColorStep k colors blinkColors) (false, s)).1 then
        RS_INVALID_COLOR else RS_SUCCESS)
      ((List.range 4).foldl (setKeyColorStep k colors blinkColors) (false, s)).2
    simp only []
    unfold ColorFoot OnlyLog at *
    rw [h2, h1]

theorem KeyInv.ofSetKeyStateOverride {s : Pkp} (hs : KeyInv s) (k : Nat) (v : Int) :
    KeyInv (setKeyStateOverride s k v).2 := by
  unfold setKeyStateOverride
  split
  · exact hs
  · by_cases hin : inLimits v (-1) (KEY_MODE_CYCLE4 : Nat) = true
    · simp only [hin, Bool.not_true, Bool.false_eq_true, if_false]
      refine KeyInv.of_onlyLog ?_ (update_keyLeds_onlyLog _)
      have hv := (inLimits_iff _ _ _).1 hin
      simp only [KEY_MODE_CYCLE4, Nat.cast_ofNat] at hv
      intro j hj
      obtain ⟨i1, i2, i3, i4⟩ := hs j hj
      by_cases e : j = k
      · subst e
        simp only [Function.update_same]
        refine ⟨?_, i2, hv.1, hv.2⟩
        split
        · rename_i c
          have := toU8_of_range v c (by omega)
          omega
        · exact i1
      · simp only [Function.update_noteq e]
        exact ⟨i1, i2, i3, i4⟩
    · simp only [Bool.not_eq_true] at hin
      simp only [hin, Bool.not_false, if_true]
      exact hs

theorem KeyInv.ofPresetDefaultKeyStates {s : Pkp} (hs : KeyInv s) (d : Nat → Int) :
    KeyInv (presetDefaultKeyStates s d).2 := by
  obtain ⟨h1, h2, -⟩ := foldl_presetStep d (List.range PKP_MAX_KEY_AMOUNT) (false, s)
  have he : (presetDefaultKeyStates s d).2
      = ((List.range PKP_MAX_KEY_AMOUNT).foldl (presetStep d) (false, s)).2 := by
    unfold presetDefaultKeyStates
    simp only []
    split <;> rfl
  rw [he]
  intro k hk
  obtain ⟨i1, i2, i3, i4⟩ := hs k hk
  refine ⟨by rw [h1]; exact i1, ?_, by rw [h1]; exact i3, by rw [h1]; exact i4⟩
  rw [h2 k]
  split
  · rename_i c
    have := toU8_of_range (d k) c.2.1 (by omega)
    omega
  · exact i2

/-- Claim C24. In every driver reachable from construction by any sequence of public
operations, with any arguments, inbound frames, clock values and transmit outcomes, every
key's logical state is in 0..3, every key's default state is in 0..3 and every key's
override value is in -1..3. -/
theorem key_records_stay_in_range (s : Pkp) (h : Reachable s) :
    ∀ k, k < PKP_MAX_KEY_AMOUNT →
      s._keyState k ≤ 3 ∧ s._defaultKeyState k ≤ 3 ∧
      -1 ≤ s._overrideKeyState k ∧ s._overrideKeyState k ≤ 3 := by
  show KeyInv s
  induction h with
  | byCtor canId callback hb =>
    intro k hk
    simp [ctor, hk]
  | byApplyDefaultKeyStates _ ih =>
    unfold applyDefaultKeyStates
    refine KeyInv.of_onlyLog ?_ (update_keyLeds_onlyLog _)
    intro k hk
    obtain ⟨i1, i2, i3, i4⟩ := ih k hk
    simp only [hk, if_true]
    exact ⟨i2, i2, i3, i4⟩
  | byBegin _ ih => exact ih.of_initFoot (initializeKeypad_initFoot _)
  | byGetRelativeEncoderTicks i _ ih =>
    unfold getRelativeEncoderTicks
    split
    · exact ih
    · exact ih.of_eq rfl rfl rfl
  | byGetStatus now _ ih => exact ih.ofWatchdog now
  | byInitializeEncoder i t a _ ih => exact ih.of_initFoot (initializeEncoder_initFoot _ _ _ _)
  | byPresetDefaultKeyStates d _ ih => exact ih.ofPresetDefaultKeyStates d
  | byProcess now f _ ih => exact ih.ofProcess now f
  | bySetBacklight c b _ ih => exact ih.of_initFoot (setBacklight_initFoot _ _ _)
  | bySetEncoderLeds leds _ ih => exact ih.of_initFoot (setEncoderLeds_initFoot _ _)
  | bySetKeyBrightness b _ ih => exact ih.of_initFoot (setKeyBrightness_initFoot _ _)
  | @bySetKeyColor s0 k colors blinkColors _ ih =>
    have h := setKeyColor_colorFoot s0 k colors blinkColors
    exact ih.of_eq (by rw [h]) (by rw [h]) (by rw [h])
  | bySetKeyMode k m _ ih =>
    unfold setKeyMode
    split_ifs
    · exact ih
    · exact ih
    · exact ih.of_eq rfl rfl rfl
  | bySetKeyStateOverride k v _ ih => exact ih.ofSetKeyStateOverride k v

set_option maxRecDepth 100000 in
/-- Claim C24, example: the driver after construction, an override of key 1 to state 3
and a key-status frame is reachable, and key 1 is in state 3. -/
theorem key_records_stay_in_range_witness :
    (process (setKeyStateOverride demoDriver 0 3).2 7 (demoKeyFrame 1 0)).2._keyState 0 ≤ 3 :=
  (key_records_stay_in_range _
    (Reachable.byProcess 7 (demoKeyFrame 1 0)
      (Reachable.bySetKeyStateOverride 0 3
        (Reachable.byCtor 0x15 (some (fun _ _ => 0)) 500 false)))
    0 (by decide)).1

/-! ## Transport failures during the init sequence -/

theorem OnlyLog.setupFoot {s t : Pkp} (h : OnlyLog s t) : SetupFoot s t := by
  unfold OnlyLog at h
  unfold SetupFoot
  rw [h]

end Pkp

end BlinkMarine
